import Mathlib

/-!
Verification development for the voxel chunk-meshing engine of the `space3`
repository (`src/block.rs`).

The Rust source is shallowly embedded below:

* `f32` color values are modelled as exact rationals (they are only stored and
  compared, never computed with, inside the meshing core);
* `f32` vertex position/normal components are modelled as integers (every value
  the mesher produces is a small integer cast from a `usize` or a unit vector
  component);
* the `u16` index values pushed into the index buffer wrap, which is modelled
  with an explicit `% 2 ^ 16`;
* GPU buffer creation (`glium`) is modelled by an oracle (`Facade`) that either
  accepts the data or reports a creation error;
* the 4-octave Perlin generator of the external `noise` crate is modelled as an
  abstract function `Int → Int → Int → ℚ` of the world coordinates (the crate is
  not part of this repository);
* `Rc`/`Weak`/`RefCell` interior mutability is modelled by explicit state
  passing: operations return the updated value next to their result.
-/

/-- Side length of a cubic chunk (`pub const CHUNK_SIZE: usize = 32`). -/
abbrev CHUNK_SIZE : Nat := 32

/-- Flat-shaded RGB color, the `[f32; 3]` of the source modelled exactly. -/
abbrev Color := ℚ × ℚ × ℚ

/-- The six axis directions (`enum NormalDirection`). -/
inductive NormalDirection where
  | up
  | down
  | left
  | right
  | front
  | back
deriving DecidableEq

/-- Source `NormalDirection::to_vec_arr`: the outward unit vector of a direction
(an `[f32; 3]`; every component is `-1.0`, `0.0` or `1.0`, modelled as `Int`). -/
def NormalDirection.to_vec_arr : NormalDirection → Int × Int × Int
  | .front => (0, 1, 0)
  | .up    => (0, 0, 1)
  | .right => (1, 0, 0)
  | .back  => (0, -1, 0)
  | .down  => (0, 0, -1)
  | .left  => (-1, 0, 0)

/-- Source `NormalDirection::to_index`: the slot of a direction in the
`adj_chunks: [Option<&Chunk>; 6]` array. -/
def NormalDirection.to_index : NormalDirection → Nat
  | .front => 0
  | .up    => 1
  | .right => 2
  | .back  => 3
  | .down  => 4
  | .left  => 5

/-- Source `impl Neg for NormalDirection`: the opposite direction. -/
def NormalDirection.neg : NormalDirection → NormalDirection
  | .front => .back
  | .back  => .front
  | .left  => .right
  | .right => .left
  | .up    => .down
  | .down  => .up

instance : Neg NormalDirection := ⟨NormalDirection.neg⟩

/-- The bit `BlockRenderData::obscures` tests for a direction
(the `match` inside `BlockRenderData::obscures`). -/
def NormalDirection.obscure_bit : NormalDirection → Nat
  | .front => 1
  | .up    => 2
  | .right => 4
  | .back  => 8
  | .down  => 16
  | .left  => 32

/-- Source `pub struct BlockRenderData` — per-block-type render data. `obscures` is a
`u8` bitset over the six directions. -/
structure BlockRenderData where
  obscures : Nat
  color : Color
  should_render : Bool

/-- Source `BlockRenderData::obscures(dir)`: whether this block type occludes the face
in direction `dir` (`self.obscures & bit != 0`). -/
def BlockRenderData.obscures_dir (b : BlockRenderData) (d : NormalDirection) : Bool :=
  b.obscures &&& d.obscure_bit != 0

/-- Source `gl_util::Vertex` — position, flat normal and color of one mesh vertex.
All position/normal components produced by the mesher are integer-valued. -/
structure Vertex where
  position : Int × Int × Int
  normal : Int × Int × Int
  color : Color
deriving DecidableEq

/-- A mesh as uploaded to the backend: the vertex-buffer contents and the
index-buffer contents (a `VertexBuffer`/`IndexBuffer` pair is modelled by the
data it holds). -/
abbrev Mesh := List Vertex × List Nat

/-- Source `pub struct Chunk` — a `CHUNK_SIZE`-sided cube of block-type ids plus the
lazily built cached mesh (`mesh: RefCell<Option<..>>`).  The block array is
modelled as a function defined on `[0, CHUNK_SIZE)³`. -/
structure Chunk where
  blocks : Nat → Nat → Nat → Nat
  mesh : Option Mesh

/-- Source `Chunk::new` — wraps a block grid, with an empty mesh cache. -/
def Chunk.new (blocks : Nat → Nat → Nat → Nat) : Chunk :=
  { blocks := blocks, mesh := none }

/-- Catalog lookup `block_render_data[id]`.  The source indexes a slice and
panics out of range; the claims only ever look up ids that are in range, so the
default entry (invisible, non-occluding) is never reached there. -/
def lookupBRD (cat : List BlockRenderData) (id : Nat) : BlockRenderData :=
  cat.getD id { obscures := 0, color := (0, 0, 0), should_render := false }

/-- The `(u, v, w) → (x, y, z)` coordinate remapping of `build_mesh`
(the first `match up_dir` inside the slice-building loop). -/
def dirXYZ : NormalDirection → Nat → Nat → Nat → Nat × Nat × Nat
  | .up,    u, v, w => (u, v, w)
  | .down,  u, v, w => (v, u, w)
  | .left,  u, v, w => (w, v, u)
  | .right, u, v, w => (w, u, v)
  | .front, u, v, w => (v, w, u)
  | .back,  u, v, w => (u, w, v)

/-- The neighbour-query offset of `build_mesh`
(the `(x_offset, y_offset, z_offset)` `match up_dir`). The source adds the
offsets with `usize::wrapping_add` and tests `>= CHUNK_SIZE`; with signed
arithmetic that is exactly the out-of-`[0, CHUNK_SIZE)` test used below. -/
def dirOffset : NormalDirection → Int × Int × Int
  | .up    => (0, 0, 1)
  | .down  => (0, 0, -1)
  | .left  => (-1, 0, 0)
  | .right => (1, 0, 0)
  | .front => (0, 1, 0)
  | .back  => (0, -1, 0)

/-- One cell of the per-layer slice built by `build_mesh`: `Some(color)` iff the
block at the cell renders and the adjacent block in direction `d` does not
obscure the shared face; at a chunk boundary the adjacent chunk
`adj (-d)` is consulted (`adj_chunks[(-up_dir).to_index()]`), and a missing
neighbour leaves the face exposed.  The `% CHUNK_SIZE` neighbour indexing of
the wrapped `usize` coordinates is the Euclidean `% CHUNK_SIZE` on `Int`,
because `CHUNK_SIZE` divides `2 ^ 64`. -/
def sliceAt (c : Chunk) (cat : List BlockRenderData) (adj : NormalDirection → Option Chunk)
    (d : NormalDirection) (w u v : Nat) : Option Color :=
  let x := (dirXYZ d u v w).1
  let y := (dirXYZ d u v w).2.1
  let z := (dirXYZ d u v w).2.2
  if (lookupBRD cat (c.blocks x y z)).should_render = false then none
  else
    let qx : Int := (x : Int) + (dirOffset d).1
    let qy : Int := (y : Int) + (dirOffset d).2.1
    let qz : Int := (z : Int) + (dirOffset d).2.2
    if qx < 0 ∨ (CHUNK_SIZE : Int) ≤ qx ∨ qy < 0 ∨ (CHUNK_SIZE : Int) ≤ qy ∨
        qz < 0 ∨ (CHUNK_SIZE : Int) ≤ qz then
      match adj (-d) with
      | some nb =>
          if (lookupBRD cat (nb.blocks (qx % (CHUNK_SIZE : Int)).toNat
              (qy % (CHUNK_SIZE : Int)).toNat (qz % (CHUNK_SIZE : Int)).toNat)).obscures_dir (-d)
              = false then
            some (lookupBRD cat (c.blocks x y z)).color
          else none
      | none => some (lookupBRD cat (c.blocks x y z)).color
    else
      if (lookupBRD cat (c.blocks qx.toNat qy.toNat qz.toNat)).obscures_dir (-d) = false then
        some (lookupBRD cat (c.blocks x y z)).color
      else none

/-- Greedy width growth (`while u + width < CHUNK_SIZE && slice[u + width][v] == Some(color)`). -/
def growWidthFrom (slice : Nat → Nat → Option Color) (u v : Nat) (c : Color)
    (width : Nat) : Nat :=
  if h : u + width < CHUNK_SIZE ∧ slice (u + width) v = some c then
    growWidthFrom slice u v c (width + 1)
  else width
termination_by CHUNK_SIZE - width
decreasing_by
  have hw : width < CHUNK_SIZE := Nat.lt_of_le_of_lt (Nat.le_add_left _ _) h.1
  omega

/-- A `width`-wide strip of row `row` matches `c`
(the inner `for k in 0..width` loop of the height growth). -/
def rowMatches (slice : Nat → Nat → Option Color) (u width row : Nat) (c : Color) : Bool :=
  decide (∀ k, k < width → slice (u + k) row = some c)

/-- Greedy height growth (the `'outer: for h in 1..(CHUNK_SIZE - v)` loop):
the first row below the seed whose strip mismatches bounds the height,
otherwise the height runs to the edge of the slice. -/
def growHeightFrom (slice : Nat → Nat → Option Color) (u v width : Nat) (c : Color)
    (h : Nat) : Nat :=
  if hh : h < CHUNK_SIZE - v then
    if rowMatches slice u width (v + h) c then growHeightFrom slice u v width c (h + 1)
    else h
  else CHUNK_SIZE - v
termination_by CHUNK_SIZE - v - h

/-- Marking the merged rectangle consumed
(`for j in 0..height { for i in 0..width { slice[u + i][v + j] = None } }`). -/
def eraseRect (slice : Nat → Nat → Option Color) (u v width height : Nat) :
    Nat → Nat → Option Color :=
  fun a b => if u ≤ a ∧ a < u + width ∧ v ≤ b ∧ b < v + height then none else slice a b

/-- One merged rectangle of a slice, as emitted by the greedy pass:
seed cell `(u, v)`, extent `width × height` and the merged color. -/
structure Rect where
  u : Nat
  v : Nat
  width : Nat
  height : Nat
  color : Color
deriving DecidableEq

theorem growWidthFrom_le (slice : Nat → Nat → Option Color) (u v : Nat) (c : Color) :
    ∀ width, width ≤ growWidthFrom slice u v c width := by
  intro width
  induction width using growWidthFrom.induct slice u v c with
  | case1 w h ih =>
      rw [growWidthFrom, dif_pos h]
      omega
  | case2 w h =>
      rw [growWidthFrom, dif_neg h]

/-- The greedy scan over one slice (`while v < CHUNK_SIZE { while u < CHUNK_SIZE { .. } }`):
skip empty cells, and at each seed cell grow a maximal rectangle, consume it and
emit it, continuing at `u + width`.  Returns the rectangles in emission order. -/
def mergeScan (slice : Nat → Nat → Option Color) (u v : Nat) : List Rect :=
  if hv : v < CHUNK_SIZE then
    if hu : u < CHUNK_SIZE then
      match slice u v with
      | none => mergeScan slice (u + 1) v
      | some c =>
          let width := growWidthFrom slice u v c 1
          let height := growHeightFrom slice u v width c 1
          { u := u, v := v, width := width, height := height, color := c } ::
            mergeScan (eraseRect slice u v width height) (u + width) v
    else mergeScan slice 0 (v + 1)
  else []
termination_by (CHUNK_SIZE - v, CHUNK_SIZE - u)
decreasing_by
  · exact Prod.Lex.right _ (by omega)
  · have h1 : 1 ≤ growWidthFrom slice u v c 1 := growWidthFrom_le slice u v c 1
    exact Prod.Lex.right _ (by omega)
  · exact Prod.Lex.left _ _ (by omega)

/-- The merged rectangles of the layer `w` slice for direction `d`
(one pass of the two inner loops of `build_mesh`). -/
def layerRects (c : Chunk) (cat : List BlockRenderData) (adj : NormalDirection → Option Chunk)
    (d : NormalDirection) (w : Nat) : List Rect :=
  mergeScan (sliceAt c cat adj d w) 0 0

/-- The direction iteration order of `build_mesh`
(`for up_dir in [ND::Up, ND::Down, ND::Left, ND::Right, ND::Front, ND::Back]`). -/
def dirOrder : List NormalDirection :=
  [.up, .down, .left, .right, .front, .back]

/-- One emitted quad: its face direction, its layer and its merged rectangle. -/
structure Quad where
  d : NormalDirection
  w : Nat
  rect : Rect
deriving DecidableEq

/-- All quads emitted by `build_mesh`, in emission order: directions in
`dirOrder`, layers `w` ascending and, per layer, merged rectangles in greedy
scan order. -/
def allQuads (c : Chunk) (cat : List BlockRenderData)
    (adj : NormalDirection → Option Chunk) : List Quad :=
  dirOrder.flatMap fun d =>
    (List.range CHUNK_SIZE).flatMap fun w =>
      (layerRects c cat adj d w).map fun r => { d := d, w := w, rect := r }

/-- The `w_offset` of the vertex positions (the `match up_dir` choosing whether
the face sits on the near or far side of the layer). -/
def wOffset : NormalDirection → Nat
  | .up    => 1
  | .down  => 0
  | .left  => 0
  | .right => 1
  | .front => 1
  | .back  => 0

/-- The four vertices pushed for one quad, in push order.  Each `match` mirrors
one of the four `data.push(Vertex { position: match up_dir { .. } .. })` sites
of the source; `u`, `v`, `w + w_offset`, `u + width`, `v + height` are the
`u_float`, `v_float`, `w_float`, `u_width_float`, `v_height_float` casts. -/
def quadVertices (q : Quad) : List Vertex :=
  let uf : Int := q.rect.u
  let vf : Int := q.rect.v
  let wf : Int := q.w + wOffset q.d
  let uwf : Int := q.rect.u + q.rect.width
  let vhf : Int := q.rect.v + q.rect.height
  let nv := q.d.to_vec_arr
  [ { position :=
        match q.d with
        | .up    => (uf, vhf, wf)
        | .down  => (vhf, uf, wf)
        | .left  => (wf, vhf, uf)
        | .right => (wf, uf, vhf)
        | .front => (vhf, wf, uf)
        | .back  => (uf, wf, vhf),
      normal := nv, color := q.rect.color },
    { position :=
        match q.d with
        | .up    => (uf, vf, wf)
        | .down  => (vf, uf, wf)
        | .left  => (wf, vf, uf)
        | .right => (wf, uf, vf)
        | .front => (vf, wf, uf)
        | .back  => (uf, wf, vf),
      normal := nv, color := q.rect.color },
    { position :=
        match q.d with
        | .up    => (uwf, vhf, wf)
        | .down  => (vhf, uwf, wf)
        | .left  => (wf, vhf, uwf)
        | .right => (wf, uwf, vhf)
        | .front => (vhf, wf, uwf)
        | .back  => (uwf, wf, vhf),
      normal := nv, color := q.rect.color },
    { position :=
        match q.d with
        | .up    => (uwf, vf, wf)
        | .down  => (vf, uwf, wf)
        | .left  => (wf, vf, uwf)
        | .right => (wf, uwf, vf)
        | .front => (vf, wf, uwf)
        | .back  => (uwf, wf, vf),
      normal := nv, color := q.rect.color } ]

/-- The vertex-buffer contents computed by `build_mesh`: four vertices per quad
in emission order (`data`). -/
def meshVertices (c : Chunk) (cat : List BlockRenderData)
    (adj : NormalDirection → Option Chunk) : List Vertex :=
  (allQuads c cat adj).flatMap quadVertices

/-- The six indices pushed for quad `k`:
`quad_start + 0, 1, 2, 3, 2, 1` with `quad_start = 4 * k`, each reduced
`% 2 ^ 16` because `quad_start` and the pushed values are `u16`. -/
def quadIndexPattern (k : Nat) : List Nat :=
  [(4 * k) % 65536, (4 * k + 1) % 65536, (4 * k + 2) % 65536,
   (4 * k + 3) % 65536, (4 * k + 2) % 65536, (4 * k + 1) % 65536]

/-- The index-buffer contents for `n` quads, in emission order. -/
def quadIndices (n : Nat) : List Nat :=
  (List.range n).flatMap quadIndexPattern

/-- The index-buffer contents computed by `build_mesh` (`indices`). -/
def meshIndices (c : Chunk) (cat : List BlockRenderData)
    (adj : NormalDirection → Option Chunk) : List Nat :=
  quadIndices (allQuads c cat adj).length

/-- Source `MeshCreationError` — which of the two buffer creations failed, carrying
the backend error. -/
inductive MeshCreationError (VE IE : Type) where
  | vertexBufferCreationFailed (err : VE)
  | indexBufferCreationFailed (err : IE)
deriving DecidableEq

/-- The rendering backend (`glium` facade) as the meshing core sees it: buffer
creation either succeeds — the buffer then holds exactly the given data — or
fails with a backend error (`BufferCreationError`). -/
structure Facade (VE IE : Type) where
  vertexBufferError : List Vertex → Option VE
  indexBufferError : List Nat → Option IE

/-- Source `Chunk::build_mesh`: return the cached mesh if present; otherwise run the
greedy mesher, upload the vertex then the index buffer, cache the mesh only on
success, and surface a buffer-creation failure as a `MeshCreationError`.
Returns the result next to the (possibly updated) chunk. -/
def Chunk.build_mesh {VE IE : Type} (c : Chunk) (cat : List BlockRenderData)
    (adj : NormalDirection → Option Chunk) (facade : Facade VE IE) :
    Except (MeshCreationError VE IE) Mesh × Chunk :=
  match c.mesh with
  | some m => (Except.ok m, c)
  | none =>
      let data := meshVertices c cat adj
      let indices := meshIndices c cat adj
      match facade.vertexBufferError data with
      | some e => (Except.error (.vertexBufferCreationFailed e), c)
      | none =>
          match facade.indexBufferError indices with
          | some e => (Except.error (.indexBufferCreationFailed e), c)
          | none => (Except.ok (data, indices), { c with mesh := some (data, indices) })

/-- The density used by `World::gen_chunk` at world block coordinates
`(wx, wy, wz)`: the base gradient `-block_z as f32 / 128.0` plus the value of
the 4-octave coherent-noise generator (abstract `noise`, see the header). -/
def World.density (noise : Int → Int → Int → ℚ) (wx wy wz : Int) : ℚ :=
  -(wz : ℚ) / 128 + noise wx wy wz

/-- The block grid `World::gen_chunk` writes for chunk `(cx, cy, cz)`: every
cell starts at `0` and is set to `1` exactly when the density at its world
coordinates `CHUNK_SIZE * chunk + index` is strictly positive. -/
def genChunkBlocks (noise : Int → Int → Int → ℚ) (cx cy cz : Int) :
    Nat → Nat → Nat → Nat :=
  fun ix iy iz =>
    if 0 < World.density noise ((CHUNK_SIZE : Int) * cx + ix)
        ((CHUNK_SIZE : Int) * cy + iy) ((CHUNK_SIZE : Int) * cz + iz)
    then 1 else 0

/-- Source `pub struct World`: the seeded generator (abstract, see the header) and the
chunk cache.  `HashMap<[i64; 3], Weak<RefCell<Chunk>>>` is modelled as an
association list whose entries hold `some chunk` while the weak reference is
still upgradable and `none` once it is stale. -/
structure World where
  noise : Int → Int → Int → ℚ
  chunks : List ((Int × Int × Int) × Option Chunk)

/-- Source `World::gen_chunk`: build the chunk for `(x, y, z)` from the density field
and register it in the cache, returning it next to the updated world. -/
def World.gen_chunk (w : World) (x y z : Int) : Chunk × World :=
  let c := Chunk.new (genChunkBlocks w.noise x y z)
  (c, { w with chunks := ((x, y, z), some c) :: w.chunks })

/-- Association-list lookup standing in for `HashMap::get`. -/
def World.cacheLookup (w : World) (x y z : Int) : Option (Option Chunk) :=
  (w.chunks.find? (fun e => e.1 = (x, y, z))).map Prod.snd

/-- Source `World::get_chunk`: return the cached chunk when its weak reference is
still live, otherwise (absent or stale entry) generate it. -/
def World.get_chunk (w : World) (x y z : Int) : Chunk × World :=
  match w.cacheLookup x y z with
  | some (some c) => (c, w)
  | _ => w.gen_chunk x y z

/-- The per-axis normalization of `CuboidRegion::new`:
`if end >= start { (start, end + 1) } else { (end, start + 1) }`. -/
def normAxis (s e : Int) : Int × Int :=
  if e ≥ s then (s, e + 1) else (e, s + 1)

/-- The half-open integer range `[a, b)` as a list, in ascending order
(the `for x in a..b` iteration). -/
def intRange (a b : Int) : List Int :=
  (List.range (b - a).toNat).map fun i => a + (i : Int)

/-- The chunk coordinates `CuboidRegion::new` fetches from the `World`, in the
`x` outermost / `z` innermost traversal order of its nested loops, after
per-axis normalization. -/
def regionCoords (start_x start_y start_z end_x end_y end_z : Int) :
    List (Int × Int × Int) :=
  (intRange (normAxis start_x end_x).1 (normAxis start_x end_x).2).flatMap fun x =>
    (intRange (normAxis start_y end_y).1 (normAxis start_y end_y).2).flatMap fun y =>
      (intRange (normAxis start_z end_z).1 (normAxis start_z end_z).2).map fun z =>
        (x, y, z)

/-- Source `pub struct CuboidRegion`: the normalized cuboid origin `start_pos`, the
shape of the `ndarray::Array3`, and the fetched chunks flattened in the same
`x`-major order in which `new` pushed them. -/
structure CuboidRegion where
  start_pos : Int × Int × Int
  dims : Nat × Nat × Nat
  chunks : List Chunk

/-- Source `CuboidRegion::new`: normalize the endpoints per axis and eagerly fetch
every chunk of the cuboid from the `World` (threading the cache through the
fetches), returning the region next to the updated world. -/
def CuboidRegion.new (w : World)
    (start_x start_y start_z end_x end_y end_z : Int) : CuboidRegion × World :=
  let bx := normAxis start_x end_x
  let bby := normAxis start_y end_y
  let bz := normAxis start_z end_z
  let fetched := (regionCoords start_x start_y start_z end_x end_y end_z).foldl
    (fun (acc : List Chunk × World) coord =>
      let cw := acc.2.get_chunk coord.1 coord.2.1 coord.2.2
      (acc.1 ++ [cw.1], cw.2))
    ([], w)
  ({ start_pos := (bx.1, bby.1, bz.1),
     dims := ((bx.2 - bx.1).toNat, (bby.2 - bby.1).toNat, (bz.2 - bz.1).toNat),
     chunks := fetched.1 }, fetched.2)

/-- The flat index of grid position `(i, j, k)` in the region's chunk list
(`x`-major, matching the push order of `new` and the iteration order of
`draw`). -/
def CuboidRegion.flatIndex (r : CuboidRegion) (i j k : Nat) : Nat :=
  (i * r.dims.2.1 + j) * r.dims.2.2 + k

/-- The region's chunk array entry at integer grid position `(i, j, k)`, or
`none` outside the region's bounds. -/
def CuboidRegion.entry (r : CuboidRegion) (i j k : Int) : Option Chunk :=
  if 0 ≤ i ∧ i < (r.dims.1 : Int) ∧ 0 ≤ j ∧ j < (r.dims.2.1 : Int) ∧
      0 ≤ k ∧ k < (r.dims.2.2 : Int) then
    r.chunks.get? (r.flatIndex i.toNat j.toNat k.toNat)
  else none

/-- One draw-loop iteration of `CuboidRegion::draw`: the chunk whose mesh is
built, the adjacency argument passed to `build_mesh`, and the translation of
the model matrix (`chunk_coord * CHUNK_SIZE` per axis). -/
structure DrawCall where
  chunk : Chunk
  adj_arg : NormalDirection → Option Chunk
  translation : Int × Int × Int

/-- Source `CuboidRegion::draw`, modelled as the sequence of draw-loop iterations it
performs: chunks in `(x, y, z)` nested order, each passed to `build_mesh` with
the literal `[Option::None; 6]` adjacency argument of the source
(`src/block.rs:105`), and placed at `chunk_coord * CHUNK_SIZE`. -/
def CuboidRegion.draw (r : CuboidRegion) : List DrawCall :=
  (List.range r.dims.1).flatMap fun i =>
    (List.range r.dims.2.1).flatMap fun j =>
      (List.range r.dims.2.2).map fun k =>
        { chunk := (r.chunks.get? (r.flatIndex i j k)).getD (Chunk.new fun _ _ _ => 0),
          adj_arg := fun _ => none,
          translation := ((r.start_pos.1 + i) * (CHUNK_SIZE : Int),
                          (r.start_pos.2.1 + j) * (CHUNK_SIZE : Int),
                          (r.start_pos.2.2 + k) * (CHUNK_SIZE : Int)) }

/-- The adjacency argument `draw` hands to `build_mesh` for the chunk at grid
position `(i, j, k)` (read off the corresponding draw call). -/
def CuboidRegion.drawAdjArg (r : CuboidRegion) (i j k : Nat) :
    NormalDirection → Option Chunk :=
  ((r.draw.get? (r.flatIndex i j k)).map DrawCall.adj_arg).getD fun _ => none

/-- Modelled from the spec (§4.4, the behaviour claim C1 attributes to
`CuboidRegion::draw`, absent from the source): the six spatial neighbours of
the chunk at grid position `(i, j, k)` as the adjacent entries of the region's
own chunk array, with chunks outside the region's bounds treated as "no
neighbor".  `build_mesh` reads slot `-d` for a face in direction `d`, so the
slot for `nd` holds the entry adjacent in direction `-nd`. -/
def specDrawAdjacency (r : CuboidRegion) (i j k : Int) :
    NormalDirection → Option Chunk :=
  fun nd =>
    r.entry (i + (dirOffset (-nd)).1) (j + (dirOffset (-nd)).2.1)
      (k + (dirOffset (-nd)).2.2)

/-- Claim C1 as a predicate on one region: every `build_mesh` call issued by
`draw` receives the region-array adjacency the spec describes. -/
def drawUsesRegionAdjacency (r : CuboidRegion) : Prop :=
  ∀ i j k : Nat, i < r.dims.1 → j < r.dims.2.1 → k < r.dims.2.2 →
    ∀ nd, r.drawAdjArg i j k nd = specDrawAdjacency r (i : Int) (j : Int) (k : Int) nd


/-- A two-entry test catalog: entry 0 is air (invisible, non-occluding) and
entry 1 a fully occluding visible red block; used by the concrete witnesses. -/
def airBRD : BlockRenderData := { obscures := 0, color := (0, 0, 0), should_render := false }

/-- The fully occluding, visible block entry of the test catalog. -/
def solidBRD : BlockRenderData := { obscures := 63, color := (1, 0, 0), should_render := true }

/-- The two-entry test catalog used by concrete witnesses. -/
def testCatalog : List BlockRenderData := [airBRD, solidBRD]

theorem normAxis_comm (s e : Int) : normAxis s e = normAxis e s := by
  unfold normAxis
  rcases lt_trichotomy s e with h | h | h
  · rw [if_pos (le_of_lt h), if_neg (not_le.mpr h)]
  · subst h; rfl
  · rw [if_neg (not_le.mpr h), if_pos (le_of_lt h)]

theorem regionCoords_swap_x (sx sy sz ex ey ez : Int) :
    regionCoords ex sy sz sx ey ez = regionCoords sx sy sz ex ey ez := by
  unfold regionCoords; rw [normAxis_comm ex sx]

theorem regionCoords_swap_y (sx sy sz ex ey ez : Int) :
    regionCoords sx ey sz ex sy ez = regionCoords sx sy sz ex ey ez := by
  unfold regionCoords; rw [normAxis_comm ey sy]

theorem regionCoords_swap_z (sx sy sz ex ey ez : Int) :
    regionCoords sx sy ez ex ey sz = regionCoords sx sy sz ex ey ez := by
  unfold regionCoords; rw [normAxis_comm ez sz]

set_option maxRecDepth 100000 in
/-- C9: Constructing a `CuboidRegion` with the two endpoints swapped on any
axis (in particular on all three) yields the same region — the same normalized
`start_pos`, the same dimensions and the same eagerly fetched chunk list — and
the same enumerated chunk-coordinate list; the concrete endpoints
`start = (5,5,5)`, `end = (-5,-5,-5)` enumerate exactly the same
`11 × 11 × 11 = 1331` coordinates as `start = (-5,-5,-5)`, `end = (5,5,5)`. -/
theorem claim_C9_endpoint_swap :
    (∀ (w : World) (sx sy sz ex ey ez : Int),
      CuboidRegion.new w ex sy sz sx ey ez = CuboidRegion.new w sx sy sz ex ey ez ∧
      CuboidRegion.new w sx ey sz ex sy ez = CuboidRegion.new w sx sy sz ex ey ez ∧
      CuboidRegion.new w sx sy ez ex ey sz = CuboidRegion.new w sx sy sz ex ey ez ∧
      CuboidRegion.new w ex ey ez sx sy sz = CuboidRegion.new w sx sy sz ex ey ez ∧
      regionCoords ex ey ez sx sy sz = regionCoords sx sy sz ex ey ez) ∧
    regionCoords 5 5 5 (-5) (-5) (-5) = regionCoords (-5) (-5) (-5) 5 5 5 ∧
    (regionCoords (-5) (-5) (-5) 5 5 5).length = 1331 := by
  have hswap : ∀ (w : World) (sx sy sz ex ey ez : Int),
      CuboidRegion.new w ex sy sz sx ey ez = CuboidRegion.new w sx sy sz ex ey ez := by
    intro w sx sy sz ex ey ez
    unfold CuboidRegion.new
    rw [normAxis_comm ex sx, regionCoords_swap_x]
  have hswapy : ∀ (w : World) (sx sy sz ex ey ez : Int),
      CuboidRegion.new w sx ey sz ex sy ez = CuboidRegion.new w sx sy sz ex ey ez := by
    intro w sx sy sz ex ey ez
    unfold CuboidRegion.new
    rw [normAxis_comm ey sy, regionCoords_swap_y]
  have hswapz : ∀ (w : World) (sx sy sz ex ey ez : Int),
      CuboidRegion.new w sx sy ez ex ey sz = CuboidRegion.new w sx sy sz ex ey ez := by
    intro w sx sy sz ex ey ez
    unfold CuboidRegion.new
    rw [normAxis_comm ez sz, regionCoords_swap_z]
  refine ⟨fun w sx sy sz ex ey ez => ⟨hswap .., hswapy .., hswapz .., ?_, ?_⟩, ?_, ?_⟩
  · rw [hswap w sx ey ez ex sy sz, hswapy w sx sy ez ex ey sz, hswapz w sx sy sz ex ey ez]
  · rw [regionCoords_swap_x, regionCoords_swap_y, regionCoords_swap_z]
  · rw [regionCoords_swap_x, regionCoords_swap_y, regionCoords_swap_z]
  · decide

/-- C8: Chunk generation is a deterministic function of the generator and
the chunk coordinates alone: the generated block grid does not depend on the
cache state (two worlds sharing a generator produce identical grids), and a
repeated invocation at the same coordinates — including after the first call
has updated the cache — produces a bit-identical grid. -/
theorem claim_C8_generation_deterministic (noise : Int → Int → Int → ℚ)
    (cache₁ cache₂ : List ((Int × Int × Int) × Option Chunk)) (x y z : Int) :
    (World.gen_chunk ⟨noise, cache₁⟩ x y z).1.blocks =
      (World.gen_chunk ⟨noise, cache₂⟩ x y z).1.blocks ∧
    (World.gen_chunk (World.gen_chunk ⟨noise, cache₁⟩ x y z).2 x y z).1.blocks =
      (World.gen_chunk ⟨noise, cache₁⟩ x y z).1.blocks :=
  ⟨rfl, rfl⟩

/-- C7: Within a generated chunk, a block's id is `1` exactly when the
density — the linearly height-decreasing base gradient plus the coherent-noise
value at the block's world coordinates — is strictly positive, and `0` (air)
otherwise. -/
theorem claim_C7_density_threshold (noise : Int → Int → Int → ℚ)
    (cx cy cz : Int) (ix iy iz : Nat)
    (_hx : ix < CHUNK_SIZE) (_hy : iy < CHUNK_SIZE) (_hz : iz < CHUNK_SIZE) :
    (genChunkBlocks noise cx cy cz ix iy iz = 1 ↔
      0 < World.density noise ((CHUNK_SIZE : Int) * cx + ix)
        ((CHUNK_SIZE : Int) * cy + iy) ((CHUNK_SIZE : Int) * cz + iz)) ∧
    (genChunkBlocks noise cx cy cz ix iy iz = 0 ↔
      ¬ 0 < World.density noise ((CHUNK_SIZE : Int) * cx + ix)
        ((CHUNK_SIZE : Int) * cy + iy) ((CHUNK_SIZE : Int) * cz + iz)) := by
  unfold genChunkBlocks
  split <;> simp_all

theorem claim_C7_witness :
    (0 : Nat) < CHUNK_SIZE ∧
    ((genChunkBlocks (fun _ _ _ => 0) 0 0 0 0 0 0 = 1 ↔
        0 < World.density (fun _ _ _ => 0) 0 0 0) ∧
     (genChunkBlocks (fun _ _ _ => 0) 0 0 0 0 0 0 = 0 ↔
        ¬ 0 < World.density (fun _ _ _ => 0) 0 0 0)) :=
  ⟨by decide,
   claim_C7_density_threshold (fun _ _ _ => 0) 0 0 0 0 0 0
     (by decide) (by decide) (by decide)⟩

/-- C10: Every block id written by the world generator is `0` or `1`, so
the catalog lookup `block_render_data[self.blocks[x][y][z]]` that `build_mesh`
performs on a generated chunk's own blocks is within bounds for any catalog
with at least two entries. -/
theorem claim_C10_generated_ids_in_catalog (noise : Int → Int → Int → ℚ)
    (cx cy cz : Int) (ix iy iz : Nat) :
    genChunkBlocks noise cx cy cz ix iy iz ≤ 1 ∧
    (∀ cat : List BlockRenderData, 2 ≤ cat.length →
      genChunkBlocks noise cx cy cz ix iy iz < cat.length) := by
  unfold genChunkBlocks
  split <;> exact ⟨by omega, fun cat hcat => by omega⟩

theorem claim_C10_witness :
    genChunkBlocks (fun _ _ _ => 0) 0 0 0 0 0 0 ≤ 1 ∧
    genChunkBlocks (fun _ _ _ => 0) 0 0 0 0 0 0 <
      ([{ obscures := 0, color := (0, 0, 0), should_render := false },
        { obscures := 63, color := (1, 0, 0), should_render := true }] :
        List BlockRenderData).length :=
  ⟨(claim_C10_generated_ids_in_catalog (fun _ _ _ => 0) 0 0 0 0 0 0).1,
   (claim_C10_generated_ids_in_catalog (fun _ _ _ => 0) 0 0 0 0 0 0).2 _ (by decide)⟩

/-- C5: If a chunk's mesh cache is populated, `build_mesh` returns the
cached mesh unchanged — independently of the catalog, the adjacency argument
and the backend — and leaves the chunk (hence its cache) untouched, so within
the embedded operations the cache is only ever empty on a freshly constructed
`Chunk`. -/
theorem claim_C5_cached_mesh_returned {VE IE : Type} (c : Chunk)
    (cat : List BlockRenderData) (adj : NormalDirection → Option Chunk)
    (facade : Facade VE IE) (m : Mesh) (h : c.mesh = some m) :
    c.build_mesh cat adj facade = (Except.ok m, c) := by
  unfold Chunk.build_mesh
  rw [h]

theorem claim_C5_witness :
    ({ blocks := fun _ _ _ => 0, mesh := some ([], []) } : Chunk).build_mesh []
        (fun _ => none) (⟨fun _ => none, fun _ => none⟩ : Facade Unit Unit) =
      (Except.ok (([], []) : Mesh),
        { blocks := fun _ _ _ => 0, mesh := some ([], []) }) :=
  claim_C5_cached_mesh_returned _ _ _ _ _ rfl

/-- C6: On an empty cache, a vertex-buffer creation failure is surfaced as
`VertexBufferCreationFailed` and an index-buffer creation failure as
`IndexBufferCreationFailed`, the chunk is returned unchanged (its cache stays
empty, so a later call recomputes), and the cache is written exactly on
success, with the freshly computed mesh. -/
theorem claim_C6_buffer_failure_surfaced {VE IE : Type} (c : Chunk)
    (cat : List BlockRenderData) (adj : NormalDirection → Option Chunk)
    (facade : Facade VE IE) (h : c.mesh = none) :
    (∀ e, facade.vertexBufferError (meshVertices c cat adj) = some e →
      c.build_mesh cat adj facade =
        (Except.error (.vertexBufferCreationFailed e), c)) ∧
    (∀ e, facade.vertexBufferError (meshVertices c cat adj) = none →
      facade.indexBufferError (meshIndices c cat adj) = some e →
      c.build_mesh cat adj facade =
        (Except.error (.indexBufferCreationFailed e), c)) ∧
    (facade.vertexBufferError (meshVertices c cat adj) = none →
      facade.indexBufferError (meshIndices c cat adj) = none →
      c.build_mesh cat adj facade =
        (Except.ok (meshVertices c cat adj, meshIndices c cat adj),
         { c with mesh := some (meshVertices c cat adj, meshIndices c cat adj) })) := by
  refine ⟨fun e he => ?_, fun e hv hi => ?_, fun hv hi => ?_⟩
  · unfold Chunk.build_mesh
    rw [h]
    simp only [he]
  · unfold Chunk.build_mesh
    rw [h]
    simp only [hv, hi]
  · unfold Chunk.build_mesh
    rw [h]
    simp only [hv, hi]

theorem claim_C6_witness :
    (Chunk.new fun _ _ _ => 0).build_mesh [] (fun _ => none)
        (⟨fun _ => some 7, fun _ => some 9⟩ : Facade Nat Nat) =
      (Except.error (MeshCreationError.vertexBufferCreationFailed 7),
        Chunk.new fun _ _ _ => 0) :=
  (claim_C6_buffer_failure_surfaced (Chunk.new fun _ _ _ => 0) [] (fun _ => none)
    (⟨fun _ => some 7, fun _ => some 9⟩ : Facade Nat Nat) rfl).1 7 rfl

theorem length_flatMap_const {α β : Type} (l : List α) (f : α → List β) (k : Nat)
    (h : ∀ a, (f a).length = k) : (l.flatMap f).length = k * l.length := by
  induction l with
  | nil => simp
  | cons a t ih =>
      rw [List.flatMap_cons, List.length_append, h a, ih, List.length_cons]
      ring

theorem quadVertices_length (q : Quad) : (quadVertices q).length = 4 := rfl

theorem meshVertices_length (c : Chunk) (cat : List BlockRenderData)
    (adj : NormalDirection → Option Chunk) :
    (meshVertices c cat adj).length = 4 * (allQuads c cat adj).length :=
  length_flatMap_const _ _ 4 quadVertices_length

theorem quadIndices_length (n : Nat) : (quadIndices n).length = 6 * n := by
  unfold quadIndices
  rw [length_flatMap_const (List.range n) quadIndexPattern 6 (fun _ => rfl),
    List.length_range]

theorem mem_quadIndices_lt (n i : Nat) (h : i ∈ quadIndices n) : i < 4 * n := by
  unfold quadIndices at h
  rw [List.mem_flatMap] at h
  obtain ⟨k, hk, hi⟩ := h
  rw [List.mem_range] at hk
  have hle : i ≤ 4 * k + 3 := by
    unfold quadIndexPattern at hi
    simp only [List.mem_cons, List.not_mem_nil, or_false] at hi
    rcases hi with h1 | h1 | h1 | h1 | h1 | h1 <;> subst h1 <;>
      exact le_trans (Nat.mod_le _ _) (by omega)
  omega

/-- C2: For every block grid, catalog and adjacency argument, the mesh
`build_mesh` computes is internally consistent: the index list holds six
entries per emitted quad, the vertex list four entries per emitted quad (so
the index count is 1.5 times the vertex count), and every index value is
strictly below the vertex-list length. -/
theorem claim_C2_mesh_counts (c : Chunk) (cat : List BlockRenderData)
    (adj : NormalDirection → Option Chunk) :
    (meshIndices c cat adj).length = 6 * (allQuads c cat adj).length ∧
    (meshVertices c cat adj).length = 4 * (allQuads c cat adj).length ∧
    2 * (meshIndices c cat adj).length = 3 * (meshVertices c cat adj).length ∧
    (∀ i ∈ meshIndices c cat adj, i < (meshVertices c cat adj).length) := by
  unfold meshIndices
  refine ⟨quadIndices_length _, meshVertices_length c cat adj, ?_, ?_⟩
  · rw [quadIndices_length, meshVertices_length]
    ring
  · intro i hi
    rw [meshVertices_length]
    exact mem_quadIndices_lt _ i hi

/-- C1 amended: `CuboidRegion::draw` does not determine neighbours from
the region's chunk array at all: the adjacency argument it passes to
`build_mesh` is the literal `[Option::None; 6]` for every chunk, so every
chunk — including one with in-bounds neighbours in the region — is meshed as
if it had no loaded neighbours. -/
theorem claim_C1_draw_passes_no_neighbors (r : CuboidRegion) (i j k : Nat)
    (nd : NormalDirection) : r.drawAdjArg i j k nd = none := by
  unfold CuboidRegion.drawAdjArg
  cases hg : r.draw.get? (r.flatIndex i j k) with
  | none => rfl
  | some call =>
      have hm : call ∈ r.draw := List.get?_mem hg
      unfold CuboidRegion.draw at hm
      simp only [List.mem_flatMap, List.mem_map, List.mem_range] at hm
      obtain ⟨a, -, b, -, e, -, rfl⟩ := hm
      rfl

/-- C1 counterexample: For the 2×1×1 region over chunk coordinates
`(0,0,0)` and `(1,0,0)`, the chunk at grid position `(0,0,0)` has an in-bounds
adjacent entry in the `+x` direction (slot `left`, since `build_mesh` reads
slot `-d` for a face in direction `d`), but `draw` passes `none` there: the
claim that `draw` passes the region-array adjacency is false. -/
theorem claim_C1_counterexample :
    ¬ drawUsesRegionAdjacency
        (CuboidRegion.new ⟨fun _ _ _ => 0, []⟩ 0 0 0 1 0 0).1 := by
  intro h
  have h0 := h 0 0 0 (by decide) (by decide) (by decide) NormalDirection.left
  exact Option.noConfusion h0

theorem mergeScan_of_done (slice : Nat → Nat → Option Color) {v : Nat}
    (hv : ¬ v < CHUNK_SIZE) (u : Nat) : mergeScan slice u v = [] := by
  rw [mergeScan, dif_neg hv]

theorem mergeScan_of_rowEnd (slice : Nat → Nat → Option Color) {u v : Nat}
    (hv : v < CHUNK_SIZE) (hu : ¬ u < CHUNK_SIZE) :
    mergeScan slice u v = mergeScan slice 0 (v + 1) := by
  conv_lhs => rw [mergeScan]
  rw [dif_pos hv, dif_neg hu]

theorem mergeScan_of_none (slice : Nat → Nat → Option Color) {u v : Nat}
    (hv : v < CHUNK_SIZE) (hu : u < CHUNK_SIZE) (h : slice u v = none) :
    mergeScan slice u v = mergeScan slice (u + 1) v := by
  conv_lhs => rw [mergeScan]
  rw [dif_pos hv, dif_pos hu, h]

theorem mergeScan_of_some (slice : Nat → Nat → Option Color) {u v : Nat} {c : Color}
    (hv : v < CHUNK_SIZE) (hu : u < CHUNK_SIZE) (h : slice u v = some c) :
    mergeScan slice u v =
      { u := u, v := v, width := growWidthFrom slice u v c 1,
        height := growHeightFrom slice u v (growWidthFrom slice u v c 1) c 1,
        color := c } ::
      mergeScan (eraseRect slice u v (growWidthFrom slice u v c 1)
          (growHeightFrom slice u v (growWidthFrom slice u v c 1) c 1))
        (u + growWidthFrom slice u v c 1) v := by
  conv_lhs => rw [mergeScan]
  rw [dif_pos hv, dif_pos hu, h]

theorem mergeScan_skip_cols (slice : Nat → Nat → Option Color) {v : Nat}
    (hv : v < CHUNK_SIZE) :
    ∀ n u, (∀ j, u ≤ j → j < u + n → slice j v = none) →
      mergeScan slice u v = mergeScan slice (u + n) v := by
  intro n
  induction n with
  | zero => intro u _; rfl
  | succ m ih =>
      intro u hnone
      by_cases hu : u < CHUNK_SIZE
      · rw [mergeScan_of_none slice hv hu (hnone u le_rfl (by omega))]
        rw [ih (u + 1) (fun j h1 h2 => hnone j (by omega) (by omega))]
        congr 1
        omega
      · rw [mergeScan_of_rowEnd slice hv hu,
          mergeScan_of_rowEnd slice hv (show ¬ u + (m + 1) < CHUNK_SIZE by omega)]

theorem mergeScan_row_none (slice : Nat → Nat → Option Color) {v : Nat}
    (hv : v < CHUNK_SIZE) (u : Nat)
    (hnone : ∀ j, j < CHUNK_SIZE → slice j v = none) :
    mergeScan slice u v = mergeScan slice 0 (v + 1) := by
  by_cases hu : u < CHUNK_SIZE
  · rw [mergeScan_skip_cols slice hv (CHUNK_SIZE - u) u
      (fun j h1 h2 => hnone j (by omega))]
    exact mergeScan_of_rowEnd slice hv (by omega)
  · exact mergeScan_of_rowEnd slice hv hu

theorem mergeScan_none_from (slice : Nat → Nat → Option Color) (v u : Nat)
    (h : ∀ a b, a < CHUNK_SIZE → v ≤ b → b < CHUNK_SIZE → slice a b = none) :
    mergeScan slice u v = [] := by
  have main : ∀ m v u, CHUNK_SIZE - v ≤ m →
      (∀ a b, a < CHUNK_SIZE → v ≤ b → b < CHUNK_SIZE → slice a b = none) →
      mergeScan slice u v = [] := by
    intro m
    induction m with
    | zero => intro v u hm _; exact mergeScan_of_done slice (by omega) u
    | succ k ih =>
        intro v u hm hnone
        by_cases hv : v < CHUNK_SIZE
        · rw [mergeScan_row_none slice hv u (fun j hj => hnone j v hj le_rfl hv)]
          exact ih (v + 1) 0 (by omega) (fun a b h1 h2 h3 => hnone a b h1 (by omega) h3)
        · exact mergeScan_of_done slice hv u
  exact main CHUNK_SIZE v u (by omega) h

theorem mergeScan_skip_rows (slice : Nat → Nat → Option Color) :
    ∀ m v, v + m ≤ CHUNK_SIZE →
      (∀ a b, a < CHUNK_SIZE → v ≤ b → b < v + m → slice a b = none) →
      mergeScan slice 0 v = mergeScan slice 0 (v + m) := by
  intro m
  induction m with
  | zero => intro v _ _; rfl
  | succ k ih =>
      intro v hm hnone
      rw [mergeScan_row_none slice (by omega) 0
        (fun j hj => hnone j v hj le_rfl (by omega))]
      rw [ih (v + 1) (by omega) (fun a b h1 h2 h3 => hnone a b h1 (by omega) (by omega))]
      congr 1
      omega

theorem growWidthFrom_stop (slice : Nat → Nat → Option Color) (u v : Nat) (c : Color)
    (w : Nat) (h : ¬ (u + w < CHUNK_SIZE ∧ slice (u + w) v = some c)) :
    growWidthFrom slice u v c w = w := by
  rw [growWidthFrom, dif_neg h]

theorem growWidthFrom_all (slice : Nat → Nat → Option Color) (u v : Nat) (c : Color)
    (hu : u < CHUNK_SIZE)
    (hall : ∀ j, u ≤ j → j < CHUNK_SIZE → slice j v = some c) :
    ∀ n w, CHUNK_SIZE - u - w = n → w ≤ CHUNK_SIZE - u →
      growWidthFrom slice u v c w = CHUNK_SIZE - u := by
  intro n
  induction n with
  | zero =>
      intro w h1 h2
      rw [growWidthFrom_stop slice u v c w (by omega)]
      omega
  | succ k ih =>
      intro w h1 h2
      have hstop : u + w < CHUNK_SIZE := by omega
      rw [growWidthFrom, dif_pos ⟨hstop, hall (u + w) (by omega) hstop⟩]
      exact ih (w + 1) (by omega) (by omega)

theorem rowMatches_true (slice : Nat → Nat → Option Color) (u width row : Nat)
    (c : Color) (h : ∀ k, k < width → slice (u + k) row = some c) :
    rowMatches slice u width row c = true := by
  unfold rowMatches
  exact decide_eq_true h

theorem rowMatches_false (slice : Nat → Nat → Option Color) (u width row : Nat)
    (c : Color) (k : Nat) (hk : k < width) (h : slice (u + k) row ≠ some c) :
    rowMatches slice u width row c = false := by
  unfold rowMatches
  exact decide_eq_false (fun hall => h (hall k hk))

theorem growHeightFrom_stop (slice : Nat → Nat → Option Color) (u v width : Nat)
    (c : Color) (h : Nat) (hh : h < CHUNK_SIZE - v)
    (hrow : rowMatches slice u width (v + h) c = false) :
    growHeightFrom slice u v width c h = h := by
  rw [growHeightFrom, dif_pos hh, hrow]
  simp

theorem growHeightFrom_edge (slice : Nat → Nat → Option Color) (u v width : Nat)
    (c : Color) (h : Nat) (hh : ¬ h < CHUNK_SIZE - v) :
    growHeightFrom slice u v width c h = CHUNK_SIZE - v := by
  rw [growHeightFrom, dif_neg hh]

theorem growHeightFrom_all (slice : Nat → Nat → Option Color) (u v width : Nat)
    (c : Color)
    (hall : ∀ hh, hh < CHUNK_SIZE - v → rowMatches slice u width (v + hh) c = true) :
    ∀ n h, CHUNK_SIZE - v - h = n →
      growHeightFrom slice u v width c h = CHUNK_SIZE - v := by
  intro n
  induction n with
  | zero => intro h h1; exact growHeightFrom_edge slice u v width c h (by omega)
  | succ k ih =>
      intro h h1
      have hlt : h < CHUNK_SIZE - v := by omega
      rw [growHeightFrom, dif_pos hlt, hall h hlt]
      simp only [if_true]
      exact ih (h + 1) (by omega)

/-- Greedy scan of a slice holding exactly one `some` cell: one 1×1 rectangle. -/
theorem mergeScan_single (slice : Nat → Nat → Option Color) (u₀ v₀ : Nat) (c : Color)
    (hu₀ : u₀ < CHUNK_SIZE) (hv₀ : v₀ < CHUNK_SIZE)
    (h : ∀ a b, a < CHUNK_SIZE → b < CHUNK_SIZE →
      slice a b = if a = u₀ ∧ b = v₀ then some c else none) :
    mergeScan slice 0 0 = [{ u := u₀, v := v₀, width := 1, height := 1, color := c }] := by
  have hrows : mergeScan slice 0 0 = mergeScan slice 0 v₀ := by
    have := mergeScan_skip_rows slice v₀ 0 (by omega)
      (fun a b h1 h2 h3 => by rw [h a b h1 (by omega), if_neg (by omega)])
    simpa using this
  have hcols : mergeScan slice 0 v₀ = mergeScan slice u₀ v₀ := by
    have := mergeScan_skip_cols slice hv₀ u₀ 0
      (fun j h1 h2 => by rw [h j v₀ (by omega) hv₀, if_neg (by omega)])
    simpa using this
  have hcell : slice u₀ v₀ = some c := by rw [h u₀ v₀ hu₀ hv₀, if_pos ⟨rfl, rfl⟩]
  have hwidth : growWidthFrom slice u₀ v₀ c 1 = 1 := by
    apply growWidthFrom_stop
    rintro ⟨hb, hs⟩
    rw [h (u₀ + 1) v₀ hb hv₀, if_neg (by omega)] at hs
    exact Option.noConfusion hs
  have hheight : growHeightFrom slice u₀ v₀ 1 c 1 = 1 := by
    by_cases h1 : 1 < CHUNK_SIZE - v₀
    · apply growHeightFrom_stop slice u₀ v₀ 1 c 1 h1
      apply rowMatches_false slice u₀ 1 (v₀ + 1) c 0 (by omega)
      rw [Nat.add_zero, h u₀ (v₀ + 1) hu₀ (by omega), if_neg (by omega)]
      exact fun hs => Option.noConfusion hs
    · rw [growHeightFrom_edge slice u₀ v₀ 1 c 1 h1]; omega
  have hrest : ∀ a b, a < CHUNK_SIZE → v₀ ≤ b → b < CHUNK_SIZE →
      eraseRect slice u₀ v₀ 1 1 a b = none := by
    intro a b h1 h2 h3
    unfold eraseRect
    by_cases he : u₀ ≤ a ∧ a < u₀ + 1 ∧ v₀ ≤ b ∧ b < v₀ + 1
    · rw [if_pos he]
    · rw [if_neg he, h a b h1 h3, if_neg (by omega)]
  rw [hrows, hcols, mergeScan_of_some slice hv₀ hu₀ hcell, hwidth, hheight,
    mergeScan_none_from _ v₀ (u₀ + 1) hrest]

/-- Greedy scan of an all-`some c` slice: one full-extent rectangle. -/
theorem mergeScan_full (slice : Nat → Nat → Option Color) (c : Color)
    (h : ∀ a b, a < CHUNK_SIZE → b < CHUNK_SIZE → slice a b = some c) :
    mergeScan slice 0 0 =
      [{ u := 0, v := 0, width := CHUNK_SIZE, height := CHUNK_SIZE, color := c }] := by
  have hcell : slice 0 0 = some c := h 0 0 (by decide) (by decide)
  have hwidth : growWidthFrom slice 0 0 c 1 = CHUNK_SIZE := by
    have := growWidthFrom_all slice 0 0 c (by decide)
      (fun j h1 h2 => h j 0 h2 (by decide)) (CHUNK_SIZE - 0 - 1) 1 rfl (by decide)
    simpa using this
  have hheight : growHeightFrom slice 0 0 CHUNK_SIZE c 1 = CHUNK_SIZE := by
    have := growHeightFrom_all slice 0 0 CHUNK_SIZE c
      (fun hh hhl => rowMatches_true slice 0 CHUNK_SIZE (0 + hh) c
        (fun k hk => h (0 + k) (0 + hh) (by omega) (by omega)))
      (CHUNK_SIZE - 0 - 1) 1 rfl
    simpa using this
  have hrest : ∀ a b, a < CHUNK_SIZE → 0 ≤ b → b < CHUNK_SIZE →
      eraseRect slice 0 0 CHUNK_SIZE CHUNK_SIZE a b = none := by
    intro a b h1 h2 h3
    unfold eraseRect
    rw [if_pos (by omega)]
  rw [mergeScan_of_some slice (by decide) (by decide) hcell, hwidth, hheight,
    mergeScan_none_from _ 0 (0 + CHUNK_SIZE) hrest]

/-- Greedy scan of a slice whose `some c` cells form exactly the column
`a = u₀`: one 1×`CHUNK_SIZE` rectangle. -/
theorem mergeScan_column (slice : Nat → Nat → Option Color) (u₀ : Nat) (c : Color)
    (hu₀ : u₀ < CHUNK_SIZE)
    (h : ∀ a b, a < CHUNK_SIZE → b < CHUNK_SIZE →
      slice a b = if a = u₀ then some c else none) :
    mergeScan slice 0 0 =
      [{ u := u₀, v := 0, width := 1, height := CHUNK_SIZE, color := c }] := by
  have hcols : mergeScan slice 0 0 = mergeScan slice u₀ 0 := by
    have := mergeScan_skip_cols slice (show (0 : Nat) < CHUNK_SIZE by decide) u₀ 0
      (fun j h1 h2 => by rw [h j 0 (by omega) (by decide), if_neg (by omega)])
    simpa using this
  have hcell : slice u₀ 0 = some c := by rw [h u₀ 0 hu₀ (by decide), if_pos rfl]
  have hwidth : growWidthFrom slice u₀ 0 c 1 = 1 := by
    apply growWidthFrom_stop
    rintro ⟨hb, hs⟩
    rw [h (u₀ + 1) 0 hb (by omega), if_neg (by omega)] at hs
    exact Option.noConfusion hs
  have hheight : growHeightFrom slice u₀ 0 1 c 1 = CHUNK_SIZE := by
    have := growHeightFrom_all slice u₀ 0 1 c
      (fun hh hhl => rowMatches_true slice u₀ 1 (0 + hh) c
        (fun k hk => by
          rw [show u₀ + k = u₀ from by omega, h u₀ (0 + hh) hu₀ (by omega), if_pos rfl]))
      (CHUNK_SIZE - 0 - 1) 1 rfl
    simpa using this
  have hrest : ∀ a b, a < CHUNK_SIZE → 0 ≤ b → b < CHUNK_SIZE →
      eraseRect slice u₀ 0 1 CHUNK_SIZE a b = none := by
    intro a b h1 h2 h3
    unfold eraseRect
    by_cases he : u₀ ≤ a ∧ a < u₀ + 1 ∧ 0 ≤ b ∧ b < 0 + CHUNK_SIZE
    · rw [if_pos he]
    · rw [if_neg he, h a b h1 h3, if_neg (by omega)]
  rw [hcols, mergeScan_of_some slice (by decide) hu₀ hcell, hwidth, hheight,
    mergeScan_none_from _ 0 (u₀ + 1) hrest]

/-- Greedy scan of a slice whose `some c` cells form exactly the row `b = v₀`:
one `CHUNK_SIZE`×1 rectangle. -/
theorem mergeScan_row (slice : Nat → Nat → Option Color) (v₀ : Nat) (c : Color)
    (hv₀ : v₀ < CHUNK_SIZE)
    (h : ∀ a b, a < CHUNK_SIZE → b < CHUNK_SIZE →
      slice a b = if b = v₀ then some c else none) :
    mergeScan slice 0 0 =
      [{ u := 0, v := v₀, width := CHUNK_SIZE, height := 1, color := c }] := by
  have hrows : mergeScan slice 0 0 = mergeScan slice 0 v₀ := by
    have := mergeScan_skip_rows slice v₀ 0 (by omega)
      (fun a b h1 h2 h3 => by rw [h a b h1 (by omega), if_neg (by omega)])
    simpa using this
  have hcell : slice 0 v₀ = some c := by rw [h 0 v₀ (by decide) hv₀, if_pos rfl]
  have hwidth : growWidthFrom slice 0 v₀ c 1 = CHUNK_SIZE := by
    have := growWidthFrom_all slice 0 v₀ c (by decide)
      (fun j h1 h2 => by rw [h j v₀ h2 hv₀, if_pos rfl]) (CHUNK_SIZE - 0 - 1) 1 rfl (by decide)
    simpa using this
  have hheight : growHeightFrom slice 0 v₀ CHUNK_SIZE c 1 = 1 := by
    by_cases h1 : 1 < CHUNK_SIZE - v₀
    · apply growHeightFrom_stop slice 0 v₀ CHUNK_SIZE c 1 h1
      apply rowMatches_false slice 0 CHUNK_SIZE (v₀ + 1) c 0 (by decide)
      rw [h (0 + 0) (v₀ + 1) (by decide) (by omega), if_neg (by omega)]
      exact fun hs => Option.noConfusion hs
    · rw [growHeightFrom_edge slice 0 v₀ CHUNK_SIZE c 1 h1]; omega
  have hrest : ∀ a b, a < CHUNK_SIZE → v₀ + 1 ≤ b → b < CHUNK_SIZE →
      eraseRect slice 0 v₀ CHUNK_SIZE 1 a b = none := by
    intro a b h1 h2 h3
    unfold eraseRect
    by_cases he : 0 ≤ a ∧ a < 0 + CHUNK_SIZE ∧ v₀ ≤ b ∧ b < v₀ + 1
    · rw [if_pos he]
    · rw [if_neg he, h a b h1 h3, if_neg (by omega)]
  rw [hrows, mergeScan_of_some slice hv₀ (by decide) hcell, hwidth, hheight,
    mergeScan_of_rowEnd _ hv₀ (by omega), mergeScan_none_from _ (v₀ + 1) 0 hrest]

/-- Slice contents, in all six directions, for a chunk holding a single
visible block at `(x₀, y₀, z₀)` (all other cells air), with no neighbours
loaded: exactly one `some` cell, at the `(u, v, w)` image of the block. -/
theorem sliceAt_single (c : Chunk) (cat : List BlockRenderData)
    (x₀ y₀ z₀ : Nat) (hx : x₀ < CHUNK_SIZE) (hy : y₀ < CHUNK_SIZE) (hz : z₀ < CHUNK_SIZE)
    (hb : ∀ x y z, x < CHUNK_SIZE → y < CHUNK_SIZE → z < CHUNK_SIZE →
      c.blocks x y z = if x = x₀ ∧ y = y₀ ∧ z = z₀ then 1 else 0)
    (h0r : (lookupBRD cat 0).should_render = false)
    (h0o : ∀ d, (lookupBRD cat 0).obscures_dir d = false)
    (h1r : (lookupBRD cat 1).should_render = true) :
    ∀ w u v, w < CHUNK_SIZE → u < CHUNK_SIZE → v < CHUNK_SIZE →
      (sliceAt c cat (fun _ => none) NormalDirection.up w u v =
        if u = x₀ ∧ v = y₀ ∧ w = z₀ then some (lookupBRD cat 1).color else none) ∧
      (sliceAt c cat (fun _ => none) NormalDirection.down w u v =
        if u = y₀ ∧ v = x₀ ∧ w = z₀ then some (lookupBRD cat 1).color else none) ∧
      (sliceAt c cat (fun _ => none) NormalDirection.left w u v =
        if u = z₀ ∧ v = y₀ ∧ w = x₀ then some (lookupBRD cat 1).color else none) ∧
      (sliceAt c cat (fun _ => none) NormalDirection.right w u v =
        if u = y₀ ∧ v = z₀ ∧ w = x₀ then some (lookupBRD cat 1).color else none) ∧
      (sliceAt c cat (fun _ => none) NormalDirection.front w u v =
        if u = z₀ ∧ v = x₀ ∧ w = y₀ then some (lookupBRD cat 1).color else none) ∧
      (sliceAt c cat (fun _ => none) NormalDirection.back w u v =
        if u = x₀ ∧ v = z₀ ∧ w = y₀ then some (lookupBRD cat 1).color else none) := by
  intro w u v hw hu hv
  refine ⟨?_, ?_, ?_, ?_, ?_, ?_⟩
  · -- up: (x, y, z) = (u, v, w), offset +z
    simp only [sliceAt, dirXYZ, dirOffset]
    by_cases hp : u = x₀ ∧ v = y₀ ∧ w = z₀
    · obtain ⟨rfl, rfl, rfl⟩ := hp
      have hbv : c.blocks u v w = 1 := by
        rw [hb u v w hu hv hw, if_pos ⟨rfl, rfl, rfl⟩]
      rw [hbv, h1r, if_neg (by decide : ¬ (true = false))]
      by_cases hq : (CHUNK_SIZE : Int) ≤ (w : Int) + 1
      · rw [if_pos (by omega), if_pos ⟨rfl, rfl, rfl⟩]
      · rw [if_neg (by omega)]
        have e1 : ((u : Int) + 0).toNat = u := by omega
        have e2 : ((v : Int) + 0).toNat = v := by omega
        have e3 : ((w : Int) + 1).toNat = w + 1 := by omega
        have hbq : c.blocks u v (w + 1) = 0 := by
          rw [hb u v (w + 1) hu hv (by omega), if_neg (by omega)]
        rw [e1, e2, e3, hbq, h0o, if_pos rfl, if_pos ⟨rfl, rfl, rfl⟩]
    · have hbv : c.blocks u v w = 0 := by
        rw [hb u v w hu hv hw, if_neg (by omega)]
      rw [hbv, h0r, if_pos rfl, if_neg hp]
  · -- down: (x, y, z) = (v, u, w), offset -z
    simp only [sliceAt, dirXYZ, dirOffset]
    by_cases hp : u = y₀ ∧ v = x₀ ∧ w = z₀
    · obtain ⟨rfl, rfl, rfl⟩ := hp
      have hbv : c.blocks v u w = 1 := by
        rw [hb v u w hv hu hw, if_pos ⟨rfl, rfl, rfl⟩]
      rw [hbv, h1r, if_neg (by decide : ¬ (true = false))]
      by_cases hq : (w : Int) + -1 < 0
      · rw [if_pos (by omega), if_pos ⟨rfl, rfl, rfl⟩]
      · rw [if_neg (by omega)]
        have e1 : ((v : Int) + 0).toNat = v := by omega
        have e2 : ((u : Int) + 0).toNat = u := by omega
        have e3 : ((w : Int) + -1).toNat = w - 1 := by omega
        have hbq : c.blocks v u (w - 1) = 0 := by
          rw [hb v u (w - 1) hv hu (by omega), if_neg (by omega)]
        rw [e1, e2, e3, hbq, h0o, if_pos rfl, if_pos ⟨rfl, rfl, rfl⟩]
    · have hbv : c.blocks v u w = 0 := by
        rw [hb v u w hv hu hw, if_neg (by omega)]
      rw [hbv, h0r, if_pos rfl, if_neg hp]
  · -- left: (x, y, z) = (w, v, u), offset -x
    simp only [sliceAt, dirXYZ, dirOffset]
    by_cases hp : u = z₀ ∧ v = y₀ ∧ w = x₀
    · obtain ⟨rfl, rfl, rfl⟩ := hp
      have hbv : c.blocks w v u = 1 := by
        rw [hb w v u hw hv hu, if_pos ⟨rfl, rfl, rfl⟩]
      rw [hbv, h1r, if_neg (by decide : ¬ (true = false))]
      by_cases hq : (w : Int) + -1 < 0
      · rw [if_pos (by omega), if_pos ⟨rfl, rfl, rfl⟩]
      · rw [if_neg (by omega)]
        have e1 : ((w : Int) + -1).toNat = w - 1 := by omega
        have e2 : ((v : Int) + 0).toNat = v := by omega
        have e3 : ((u : Int) + 0).toNat = u := by omega
        have hbq : c.blocks (w - 1) v u = 0 := by
          rw [hb (w - 1) v u (by omega) hv hu, if_neg (by omega)]
        rw [e1, e2, e3, hbq, h0o, if_pos rfl, if_pos ⟨rfl, rfl, rfl⟩]
    · have hbv : c.blocks w v u = 0 := by
        rw [hb w v u hw hv hu, if_neg (by omega)]
      rw [hbv, h0r, if_pos rfl, if_neg hp]
  · -- right: (x, y, z) = (w, u, v), offset +x
    simp only [sliceAt, dirXYZ, dirOffset]
    by_cases hp : u = y₀ ∧ v = z₀ ∧ w = x₀
    · obtain ⟨rfl, rfl, rfl⟩ := hp
      have hbv : c.blocks w u v = 1 := by
        rw [hb w u v hw hu hv, if_pos ⟨rfl, rfl, rfl⟩]
      rw [hbv, h1r, if_neg (by decide : ¬ (true = false))]
      by_cases hq : (CHUNK_SIZE : Int) ≤ (w : Int) + 1
      · rw [if_pos (by omega), if_pos ⟨rfl, rfl, rfl⟩]
      · rw [if_neg (by omega)]
        have e1 : ((w : Int) + 1).toNat = w + 1 := by omega
        have e2 : ((u : Int) + 0).toNat = u := by omega
        have e3 : ((v : Int) + 0).toNat = v := by omega
        have hbq : c.blocks (w + 1) u v = 0 := by
          rw [hb (w + 1) u v (by omega) hu hv, if_neg (by omega)]
        rw [e1, e2, e3, hbq, h0o, if_pos rfl, if_pos ⟨rfl, rfl, rfl⟩]
    · have hbv : c.blocks w u v = 0 := by
        rw [hb w u v hw hu hv, if_neg (by omega)]
      rw [hbv, h0r, if_pos rfl, if_neg hp]
  · -- front: (x, y, z) = (v, w, u), offset +y
    simp only [sliceAt, dirXYZ, dirOffset]
    by_cases hp : u = z₀ ∧ v = x₀ ∧ w = y₀
    · obtain ⟨rfl, rfl, rfl⟩ := hp
      have hbv : c.blocks v w u = 1 := by
        rw [hb v w u hv hw hu, if_pos ⟨rfl, rfl, rfl⟩]
      rw [hbv, h1r, if_neg (by decide : ¬ (true = false))]
      by_cases hq : (CHUNK_SIZE : Int) ≤ (w : Int) + 1
      · rw [if_pos (by omega), if_pos ⟨rfl, rfl, rfl⟩]
      · rw [if_neg (by omega)]
        have e1 : ((v : Int) + 0).toNat = v := by omega
        have e2 : ((w : Int) + 1).toNat = w + 1 := by omega
        have e3 : ((u : Int) + 0).toNat = u := by omega
        have hbq : c.blocks v (w + 1) u = 0 := by
          rw [hb v (w + 1) u hv (by omega) hu, if_neg (by omega)]
        rw [e1, e2, e3, hbq, h0o, if_pos rfl, if_pos ⟨rfl, rfl, rfl⟩]
    · have hbv : c.blocks v w u = 0 := by
        rw [hb v w u hv hw hu, if_neg (by omega)]
      rw [hbv, h0r, if_pos rfl, if_neg hp]
  · -- back: (x, y, z) = (u, w, v), offset -y
    simp only [sliceAt, dirXYZ, dirOffset]
    by_cases hp : u = x₀ ∧ v = z₀ ∧ w = y₀
    · obtain ⟨rfl, rfl, rfl⟩ := hp
      have hbv : c.blocks u w v = 1 := by
        rw [hb u w v hu hw hv, if_pos ⟨rfl, rfl, rfl⟩]
      rw [hbv, h1r, if_neg (by decide : ¬ (true = false))]
      by_cases hq : (w : Int) + -1 < 0
      · rw [if_pos (by omega), if_pos ⟨rfl, rfl, rfl⟩]
      · rw [if_neg (by omega)]
        have e1 : ((u : Int) + 0).toNat = u := by omega
        have e2 : ((w : Int) + -1).toNat = w - 1 := by omega
        have e3 : ((v : Int) + 0).toNat = v := by omega
        have hbq : c.blocks u (w - 1) v = 0 := by
          rw [hb u (w - 1) v hu (by omega) hv, if_neg (by omega)]
        rw [e1, e2, e3, hbq, h0o, if_pos rfl, if_pos ⟨rfl, rfl, rfl⟩]
    · have hbv : c.blocks u w v = 0 := by
        rw [hb u w v hu hw hv, if_neg (by omega)]
      rw [hbv, h0r, if_pos rfl, if_neg hp]

theorem range_flatMap_nil {α : Type} (n : Nat) (f : Nat → List α)
    (h : ∀ j, j < n → f j = []) : (List.range n).flatMap f = [] := by
  induction n with
  | zero => rfl
  | succ m ih =>
      rw [List.range_succ, List.flatMap_append, ih (fun j hj => h j (by omega))]
      simp [h m (by omega)]

theorem range_flatMap_single {α : Type} (n k : Nat) (f : Nat → List α) (hk : k < n)
    (hz : ∀ j, j < n → j ≠ k → f j = []) : (List.range n).flatMap f = f k := by
  induction n with
  | zero => omega
  | succ m ih =>
      rw [List.range_succ, List.flatMap_append]
      by_cases hkm : k = m
      · rw [← hkm]
        rw [range_flatMap_nil k f (fun j hj => hz j (by omega) (by omega)),
          List.nil_append]
        simp
      · rw [ih (by omega) (fun j hj hjk => hz j (by omega) hjk)]
        simp [hz m (by omega) (fun hmk => hkm hmk.symm)]

theorem quadVertices_normal (q : Quad) :
    ∀ vx ∈ quadVertices q, vx.normal = q.d.to_vec_arr := by
  intro vx hvx
  unfold quadVertices at hvx
  simp only [List.mem_cons, List.not_mem_nil, or_false] at hvx
  rcases hvx with rfl | rfl | rfl | rfl <;> rfl

/-- C3: For a chunk containing exactly one solid block (catalog-visible,
fully occluding) with every other cell air and no neighbours loaded,
`build_mesh` emits exactly six unit (1×1) quads, one per axis direction, in
the direction iteration order, and every vertex of each quad carries that
direction's outward unit vector as its normal. -/
theorem claim_C3_isolated_block (c : Chunk) (cat : List BlockRenderData)
    (x₀ y₀ z₀ : Nat) (hx : x₀ < CHUNK_SIZE) (hy : y₀ < CHUNK_SIZE) (hz : z₀ < CHUNK_SIZE)
    (hb : ∀ x y z, x < CHUNK_SIZE → y < CHUNK_SIZE → z < CHUNK_SIZE →
      c.blocks x y z = if x = x₀ ∧ y = y₀ ∧ z = z₀ then 1 else 0)
    (h0r : (lookupBRD cat 0).should_render = false)
    (h0o : ∀ d, (lookupBRD cat 0).obscures_dir d = false)
    (h1r : (lookupBRD cat 1).should_render = true)
    (_h1o : ∀ d, (lookupBRD cat 1).obscures_dir d = true) :
    allQuads c cat (fun _ => none) =
      [{ d := .up,    w := z₀, rect := ⟨x₀, y₀, 1, 1, (lookupBRD cat 1).color⟩ },
       { d := .down,  w := z₀, rect := ⟨y₀, x₀, 1, 1, (lookupBRD cat 1).color⟩ },
       { d := .left,  w := x₀, rect := ⟨z₀, y₀, 1, 1, (lookupBRD cat 1).color⟩ },
       { d := .right, w := x₀, rect := ⟨y₀, z₀, 1, 1, (lookupBRD cat 1).color⟩ },
       { d := .front, w := y₀, rect := ⟨z₀, x₀, 1, 1, (lookupBRD cat 1).color⟩ },
       { d := .back,  w := y₀, rect := ⟨x₀, z₀, 1, 1, (lookupBRD cat 1).color⟩ }] ∧
    (∀ q ∈ allQuads c cat (fun _ => none),
      ∀ vx ∈ quadVertices q, vx.normal = q.d.to_vec_arr) := by
  refine ⟨?_, fun q _ => quadVertices_normal q⟩
  have hs := sliceAt_single c cat x₀ y₀ z₀ hx hy hz hb h0r h0o h1r
  have Lup : ∀ j, j < CHUNK_SIZE → j ≠ z₀ →
      layerRects c cat (fun _ => none) .up j = [] := fun j hj hjz =>
    mergeScan_none_from _ 0 0 (fun a b ha _ hbb => by
      rw [(hs j a b hj ha hbb).1, if_neg (by omega)])
  have Lupk : layerRects c cat (fun _ => none) .up z₀ =
      [⟨x₀, y₀, 1, 1, (lookupBRD cat 1).color⟩] :=
    mergeScan_single _ x₀ y₀ _ hx hy (fun a b ha hbb => by
      rw [(hs z₀ a b hz ha hbb).1]
      by_cases hc : a = x₀ ∧ b = y₀
      · rw [if_pos ⟨hc.1, hc.2, rfl⟩, if_pos hc]
      · rw [if_neg (by omega), if_neg hc])
  have Ldown : ∀ j, j < CHUNK_SIZE → j ≠ z₀ →
      layerRects c cat (fun _ => none) .down j = [] := fun j hj hjz =>
    mergeScan_none_from _ 0 0 (fun a b ha _ hbb => by
      rw [(hs j a b hj ha hbb).2.1, if_neg (by omega)])
  have Ldownk : layerRects c cat (fun _ => none) .down z₀ =
      [⟨y₀, x₀, 1, 1, (lookupBRD cat 1).color⟩] :=
    mergeScan_single _ y₀ x₀ _ hy hx (fun a b ha hbb => by
      rw [(hs z₀ a b hz ha hbb).2.1]
      by_cases hc : a = y₀ ∧ b = x₀
      · rw [if_pos ⟨hc.1, hc.2, rfl⟩, if_pos hc]
      · rw [if_neg (by omega), if_neg hc])
  have Lleft : ∀ j, j < CHUNK_SIZE → j ≠ x₀ →
      layerRects c cat (fun _ => none) .left j = [] := fun j hj hjz =>
    mergeScan_none_from _ 0 0 (fun a b ha _ hbb => by
      rw [(hs j a b hj ha hbb).2.2.1, if_neg (by omega)])
  have Lleftk : layerRects c cat (fun _ => none) .left x₀ =
      [⟨z₀, y₀, 1, 1, (lookupBRD cat 1).color⟩] :=
    mergeScan_single _ z₀ y₀ _ hz hy (fun a b ha hbb => by
      rw [(hs x₀ a b hx ha hbb).2.2.1]
      by_cases hc : a = z₀ ∧ b = y₀
      · rw [if_pos ⟨hc.1, hc.2, rfl⟩, if_pos hc]
      · rw [if_neg (by omega), if_neg hc])
  have Lright : ∀ j, j < CHUNK_SIZE → j ≠ x₀ →
      layerRects c cat (fun _ => none) .right j = [] := fun j hj hjz =>
    mergeScan_none_from _ 0 0 (fun a b ha _ hbb => by
      rw [(hs j a b hj ha hbb).2.2.2.1, if_neg (by omega)])
  have Lrightk : layerRects c cat (fun _ => none) .right x₀ =
      [⟨y₀, z₀, 1, 1, (lookupBRD cat 1).color⟩] :=
    mergeScan_single _ y₀ z₀ _ hy hz (fun a b ha hbb => by
      rw [(hs x₀ a b hx ha hbb).2.2.2.1]
      by_cases hc : a = y₀ ∧ b = z₀
      · rw [if_pos ⟨hc.1, hc.2, rfl⟩, if_pos hc]
      · rw [if_neg (by omega), if_neg hc])
  have Lfront : ∀ j, j < CHUNK_SIZE → j ≠ y₀ →
      layerRects c cat (fun _ => none) .front j = [] := fun j hj hjz =>
    mergeScan_none_from _ 0 0 (fun a b ha _ hbb => by
      rw [(hs j a b hj ha hbb).2.2.2.2.1, if_neg (by omega)])
  have Lfrontk : layerRects c cat (fun _ => none) .front y₀ =
      [⟨z₀, x₀, 1, 1, (lookupBRD cat 1).color⟩] :=
    mergeScan_single _ z₀ x₀ _ hz hx (fun a b ha hbb => by
      rw [(hs y₀ a b hy ha hbb).2.2.2.2.1]
      by_cases hc : a = z₀ ∧ b = x₀
      · rw [if_pos ⟨hc.1, hc.2, rfl⟩, if_pos hc]
      · rw [if_neg (by omega), if_neg hc])
  have Lback : ∀ j, j < CHUNK_SIZE → j ≠ y₀ →
      layerRects c cat (fun _ => none) .back j = [] := fun j hj hjz =>
    mergeScan_none_from _ 0 0 (fun a b ha _ hbb => by
      rw [(hs j a b hj ha hbb).2.2.2.2.2, if_neg (by omega)])
  have Lbackk : layerRects c cat (fun _ => none) .back y₀ =
      [⟨x₀, z₀, 1, 1, (lookupBRD cat 1).color⟩] :=
    mergeScan_single _ x₀ z₀ _ hx hz (fun a b ha hbb => by
      rw [(hs y₀ a b hy ha hbb).2.2.2.2.2]
      by_cases hc : a = x₀ ∧ b = z₀
      · rw [if_pos ⟨hc.1, hc.2, rfl⟩, if_pos hc]
      · rw [if_neg (by omega), if_neg hc])
  unfold allQuads
  rw [show dirOrder = [NormalDirection.up, .down, .left, .right, .front, .back] from rfl]
  simp only [List.flatMap_cons, List.flatMap_nil, List.append_nil]
  rw [range_flatMap_single CHUNK_SIZE z₀
      (fun w => (layerRects c cat (fun _ => none) NormalDirection.up w).map
        fun r => Quad.mk NormalDirection.up w r) hz
      (fun j hj hjk => by simp only [Lup j hj hjk, List.map_nil]),
    range_flatMap_single CHUNK_SIZE z₀
      (fun w => (layerRects c cat (fun _ => none) NormalDirection.down w).map
        fun r => Quad.mk NormalDirection.down w r) hz
      (fun j hj hjk => by simp only [Ldown j hj hjk, List.map_nil]),
    range_flatMap_single CHUNK_SIZE x₀
      (fun w => (layerRects c cat (fun _ => none) NormalDirection.left w).map
        fun r => Quad.mk NormalDirection.left w r) hx
      (fun j hj hjk => by simp only [Lleft j hj hjk, List.map_nil]),
    range_flatMap_single CHUNK_SIZE x₀
      (fun w => (layerRects c cat (fun _ => none) NormalDirection.right w).map
        fun r => Quad.mk NormalDirection.right w r) hx
      (fun j hj hjk => by simp only [Lright j hj hjk, List.map_nil]),
    range_flatMap_single CHUNK_SIZE y₀
      (fun w => (layerRects c cat (fun _ => none) NormalDirection.front w).map
        fun r => Quad.mk NormalDirection.front w r) hy
      (fun j hj hjk => by simp only [Lfront j hj hjk, List.map_nil]),
    range_flatMap_single CHUNK_SIZE y₀
      (fun w => (layerRects c cat (fun _ => none) NormalDirection.back w).map
        fun r => Quad.mk NormalDirection.back w r) hy
      (fun j hj hjk => by simp only [Lback j hj hjk, List.map_nil])]
  rw [Lupk, Ldownk, Lleftk, Lrightk, Lfrontk, Lbackk]
  rfl

/-- Slice contents, in all six directions, for a chunk whose solid cells form
the full-extent horizontal slab `z = k` (thickness 1), with no neighbours
loaded: the `up`/`down` slices of layer `k` are entirely `some`, and each
lateral direction exposes one line of cells on its boundary layer. -/
theorem sliceAt_slab (c : Chunk) (cat : List BlockRenderData) (k : Nat)
    (hk : k < CHUNK_SIZE)
    (hb : ∀ x y z, x < CHUNK_SIZE → y < CHUNK_SIZE → z < CHUNK_SIZE →
      c.blocks x y z = if z = k then 1 else 0)
    (h0r : (lookupBRD cat 0).should_render = false)
    (h0o : ∀ d, (lookupBRD cat 0).obscures_dir d = false)
    (h1r : (lookupBRD cat 1).should_render = true)
    (h1o : ∀ d, (lookupBRD cat 1).obscures_dir d = true) :
    ∀ w u v, w < CHUNK_SIZE → u < CHUNK_SIZE → v < CHUNK_SIZE →
      (sliceAt c cat (fun _ => none) NormalDirection.up w u v =
        if w = k then some (lookupBRD cat 1).color else none) ∧
      (sliceAt c cat (fun _ => none) NormalDirection.down w u v =
        if w = k then some (lookupBRD cat 1).color else none) ∧
      (sliceAt c cat (fun _ => none) NormalDirection.left w u v =
        if w = 0 ∧ u = k then some (lookupBRD cat 1).color else none) ∧
      (sliceAt c cat (fun _ => none) NormalDirection.right w u v =
        if w = CHUNK_SIZE - 1 ∧ v = k then some (lookupBRD cat 1).color else none) ∧
      (sliceAt c cat (fun _ => none) NormalDirection.front w u v =
        if w = CHUNK_SIZE - 1 ∧ u = k then some (lookupBRD cat 1).color else none) ∧
      (sliceAt c cat (fun _ => none) NormalDirection.back w u v =
        if w = 0 ∧ v = k then some (lookupBRD cat 1).color else none) := by
  intro w u v hw hu hv
  refine ⟨?_, ?_, ?_, ?_, ?_, ?_⟩
  · -- up: (x, y, z) = (u, v, w), offset +z
    simp only [sliceAt, dirXYZ, dirOffset]
    by_cases hp : w = k
    · have hbv : c.blocks u v w = 1 := by rw [hb u v w hu hv hw, if_pos hp]
      rw [hbv, h1r, if_neg (by decide : ¬ (true = false))]
      by_cases hq : (CHUNK_SIZE : Int) ≤ (w : Int) + 1
      · rw [if_pos (by omega), if_pos hp]
      · rw [if_neg (by omega)]
        have e1 : ((u : Int) + 0).toNat = u := by omega
        have e2 : ((v : Int) + 0).toNat = v := by omega
        have e3 : ((w : Int) + 1).toNat = w + 1 := by omega
        have hbq : c.blocks u v (w + 1) = 0 := by
          rw [hb u v (w + 1) hu hv (by omega), if_neg (by omega)]
        rw [e1, e2, e3, hbq, h0o, if_pos rfl, if_pos hp]
    · have hbv : c.blocks u v w = 0 := by rw [hb u v w hu hv hw, if_neg hp]
      rw [hbv, h0r, if_pos rfl, if_neg hp]
  · -- down: (x, y, z) = (v, u, w), offset -z
    simp only [sliceAt, dirXYZ, dirOffset]
    by_cases hp : w = k
    · have hbv : c.blocks v u w = 1 := by rw [hb v u w hv hu hw, if_pos hp]
      rw [hbv, h1r, if_neg (by decide : ¬ (true = false))]
      by_cases hq : (w : Int) + -1 < 0
      · rw [if_pos (by omega), if_pos hp]
      · rw [if_neg (by omega)]
        have e1 : ((v : Int) + 0).toNat = v := by omega
        have e2 : ((u : Int) + 0).toNat = u := by omega
        have e3 : ((w : Int) + -1).toNat = w - 1 := by omega
        have hbq : c.blocks v u (w - 1) = 0 := by
          rw [hb v u (w - 1) hv hu (by omega), if_neg (by omega)]
        rw [e1, e2, e3, hbq, h0o, if_pos rfl, if_pos hp]
    · have hbv : c.blocks v u w = 0 := by rw [hb v u w hv hu hw, if_neg hp]
      rw [hbv, h0r, if_pos rfl, if_neg hp]
  · -- left: (x, y, z) = (w, v, u), offset -x
    simp only [sliceAt, dirXYZ, dirOffset]
    by_cases hp : u = k
    · have hbv : c.blocks w v u = 1 := by rw [hb w v u hw hv hu, if_pos hp]
      rw [hbv, h1r, if_neg (by decide : ¬ (true = false))]
      by_cases hq : (w : Int) + -1 < 0
      · rw [if_pos (by omega), if_pos ⟨by omega, hp⟩]
      · rw [if_neg (by omega)]
        have e1 : ((w : Int) + -1).toNat = w - 1 := by omega
        have e2 : ((v : Int) + 0).toNat = v := by omega
        have e3 : ((u : Int) + 0).toNat = u := by omega
        have hbq : c.blocks (w - 1) v u = 1 := by
          rw [hb (w - 1) v u (by omega) hv hu, if_pos hp]
        rw [e1, e2, e3, hbq, h1o, if_neg (by decide : ¬ (true = false)),
          if_neg (by omega)]
    · have hbv : c.blocks w v u = 0 := by rw [hb w v u hw hv hu, if_neg hp]
      rw [hbv, h0r, if_pos rfl, if_neg (by omega)]
  · -- right: (x, y, z) = (w, u, v), offset +x
    simp only [sliceAt, dirXYZ, dirOffset]
    by_cases hp : v = k
    · have hbv : c.blocks w u v = 1 := by rw [hb w u v hw hu hv, if_pos hp]
      rw [hbv, h1r, if_neg (by decide : ¬ (true = false))]
      by_cases hq : (CHUNK_SIZE : Int) ≤ (w : Int) + 1
      · rw [if_pos (by omega), if_pos ⟨by omega, hp⟩]
      · rw [if_neg (by omega)]
        have e1 : ((w : Int) + 1).toNat = w + 1 := by omega
        have e2 : ((u : Int) + 0).toNat = u := by omega
        have e3 : ((v : Int) + 0).toNat = v := by omega
        have hbq : c.blocks (w + 1) u v = 1 := by
          rw [hb (w + 1) u v (by omega) hu hv, if_pos hp]
        rw [e1, e2, e3, hbq, h1o, if_neg (by decide : ¬ (true = false)),
          if_neg (by omega)]
    · have hbv : c.blocks w u v = 0 := by rw [hb w u v hw hu hv, if_neg hp]
      rw [hbv, h0r, if_pos rfl, if_neg (by omega)]
  · -- front: (x, y, z) = (v, w, u), offset +y
    simp only [sliceAt, dirXYZ, dirOffset]
    by_cases hp : u = k
    · have hbv : c.blocks v w u = 1 := by rw [hb v w u hv hw hu, if_pos hp]
      rw [hbv, h1r, if_neg (by decide : ¬ (true = false))]
      by_cases hq : (CHUNK_SIZE : Int) ≤ (w : Int) + 1
      · rw [if_pos (by omega), if_pos ⟨by omega, hp⟩]
      · rw [if_neg (by omega)]
        have e1 : ((v : Int) + 0).toNat = v := by omega
        have e2 : ((w : Int) + 1).toNat = w + 1 := by omega
        have e3 : ((u : Int) + 0).toNat = u := by omega
        have hbq : c.blocks v (w + 1) u = 1 := by
          rw [hb v (w + 1) u hv (by omega) hu, if_pos hp]
        rw [e1, e2, e3, hbq, h1o, if_neg (by decide : ¬ (true = false)),
          if_neg (by omega)]
    · have hbv : c.blocks v w u = 0 := by rw [hb v w u hv hw hu, if_neg hp]
      rw [hbv, h0r, if_pos rfl, if_neg (by omega)]
  · -- back: (x, y, z) = (u, w, v), offset -y
    simp only [sliceAt, dirXYZ, dirOffset]
    by_cases hp : v = k
    · have hbv : c.blocks u w v = 1 := by rw [hb u w v hu hw hv, if_pos hp]
      rw [hbv, h1r, if_neg (by decide : ¬ (true = false))]
      by_cases hq : (w : Int) + -1 < 0
      · rw [if_pos (by omega), if_pos ⟨by omega, hp⟩]
      · rw [if_neg (by omega)]
        have e1 : ((u : Int) + 0).toNat = u := by omega
        have e2 : ((w : Int) + -1).toNat = w - 1 := by omega
        have e3 : ((v : Int) + 0).toNat = v := by omega
        have hbq : c.blocks u (w - 1) v = 1 := by
          rw [hb u (w - 1) v hu (by omega) hv, if_pos hp]
        rw [e1, e2, e3, hbq, h1o, if_neg (by decide : ¬ (true = false)),
          if_neg (by omega)]
    · have hbv : c.blocks u w v = 0 := by rw [hb u w v hu hw hv, if_neg hp]
      rw [hbv, h0r, if_pos rfl, if_neg (by omega)]

/-- C4: For a chunk whose blocks form a single-material solid slab of full
horizontal extent and thickness 1 at height `k` (no neighbours loaded),
`build_mesh` emits exactly one full-extent `CHUNK_SIZE × CHUNK_SIZE` quad for
the slab's top face and one for its bottom face (the only other quads are the
four lateral boundary strips), rather than `CHUNK_SIZE²` unit quads. -/
theorem claim_C4_slab_merged_quads (c : Chunk) (cat : List BlockRenderData) (k : Nat)
    (hk : k < CHUNK_SIZE)
    (hb : ∀ x y z, x < CHUNK_SIZE → y < CHUNK_SIZE → z < CHUNK_SIZE →
      c.blocks x y z = if z = k then 1 else 0)
    (h0r : (lookupBRD cat 0).should_render = false)
    (h0o : ∀ d, (lookupBRD cat 0).obscures_dir d = false)
    (h1r : (lookupBRD cat 1).should_render = true)
    (h1o : ∀ d, (lookupBRD cat 1).obscures_dir d = true) :
    allQuads c cat (fun _ => none) =
      [{ d := .up,    w := k, rect := ⟨0, 0, CHUNK_SIZE, CHUNK_SIZE, (lookupBRD cat 1).color⟩ },
       { d := .down,  w := k, rect := ⟨0, 0, CHUNK_SIZE, CHUNK_SIZE, (lookupBRD cat 1).color⟩ },
       { d := .left,  w := 0, rect := ⟨k, 0, 1, CHUNK_SIZE, (lookupBRD cat 1).color⟩ },
       { d := .right, w := CHUNK_SIZE - 1, rect := ⟨0, k, CHUNK_SIZE, 1, (lookupBRD cat 1).color⟩ },
       { d := .front, w := CHUNK_SIZE - 1, rect := ⟨k, 0, 1, CHUNK_SIZE, (lookupBRD cat 1).color⟩ },
       { d := .back,  w := 0, rect := ⟨0, k, CHUNK_SIZE, 1, (lookupBRD cat 1).color⟩ }] ∧
    (allQuads c cat (fun _ => none)).filter
        (fun q => decide (q.d = NormalDirection.up ∨ q.d = NormalDirection.down)) =
      [{ d := .up,   w := k, rect := ⟨0, 0, CHUNK_SIZE, CHUNK_SIZE, (lookupBRD cat 1).color⟩ },
       { d := .down, w := k, rect := ⟨0, 0, CHUNK_SIZE, CHUNK_SIZE, (lookupBRD cat 1).color⟩ }] := by
  have hs := sliceAt_slab c cat k hk hb h0r h0o h1r h1o
  have Lup0 : ∀ j, j < CHUNK_SIZE → j ≠ k →
      layerRects c cat (fun _ => none) .up j = [] := fun j hj hjk =>
    mergeScan_none_from _ 0 0 (fun a b ha _ hbb => by
      rw [(hs j a b hj ha hbb).1, if_neg hjk])
  have Lupk : layerRects c cat (fun _ => none) .up k =
      [⟨0, 0, CHUNK_SIZE, CHUNK_SIZE, (lookupBRD cat 1).color⟩] :=
    mergeScan_full _ _ (fun a b ha hbb => by
      rw [(hs k a b hk ha hbb).1, if_pos rfl])
  have Ldown0 : ∀ j, j < CHUNK_SIZE → j ≠ k →
      layerRects c cat (fun _ => none) .down j = [] := fun j hj hjk =>
    mergeScan_none_from _ 0 0 (fun a b ha _ hbb => by
      rw [(hs j a b hj ha hbb).2.1, if_neg hjk])
  have Ldownk : layerRects c cat (fun _ => none) .down k =
      [⟨0, 0, CHUNK_SIZE, CHUNK_SIZE, (lookupBRD cat 1).color⟩] :=
    mergeScan_full _ _ (fun a b ha hbb => by
      rw [(hs k a b hk ha hbb).2.1, if_pos rfl])
  have Lleft0 : ∀ j, j < CHUNK_SIZE → j ≠ 0 →
      layerRects c cat (fun _ => none) .left j = [] := fun j hj hj0 =>
    mergeScan_none_from _ 0 0 (fun a b ha _ hbb => by
      rw [(hs j a b hj ha hbb).2.2.1, if_neg (by omega)])
  have Lleftk : layerRects c cat (fun _ => none) .left 0 =
      [⟨k, 0, 1, CHUNK_SIZE, (lookupBRD cat 1).color⟩] :=
    mergeScan_column _ k _ hk (fun a b ha hbb => by
      rw [(hs 0 a b (by decide) ha hbb).2.2.1]
      by_cases hc : a = k
      · rw [if_pos ⟨rfl, hc⟩, if_pos hc]
      · rw [if_neg (by omega), if_neg hc])
  have Lright0 : ∀ j, j < CHUNK_SIZE → j ≠ CHUNK_SIZE - 1 →
      layerRects c cat (fun _ => none) .right j = [] := fun j hj hj0 =>
    mergeScan_none_from _ 0 0 (fun a b ha _ hbb => by
      rw [(hs j a b hj ha hbb).2.2.2.1, if_neg (by omega)])
  have Lrightk : layerRects c cat (fun _ => none) .right (CHUNK_SIZE - 1) =
      [⟨0, k, CHUNK_SIZE, 1, (lookupBRD cat 1).color⟩] :=
    mergeScan_row _ k _ hk (fun a b ha hbb => by
      rw [(hs (CHUNK_SIZE - 1) a b (by decide) ha hbb).2.2.2.1]
      by_cases hc : b = k
      · rw [if_pos ⟨rfl, hc⟩, if_pos hc]
      · rw [if_neg (by omega), if_neg hc])
  have Lfront0 : ∀ j, j < CHUNK_SIZE → j ≠ CHUNK_SIZE - 1 →
      layerRects c cat (fun _ => none) .front j = [] := fun j hj hj0 =>
    mergeScan_none_from _ 0 0 (fun a b ha _ hbb => by
      rw [(hs j a b hj ha hbb).2.2.2.2.1, if_neg (by omega)])
  have Lfrontk : layerRects c cat (fun _ => none) .front (CHUNK_SIZE - 1) =
      [⟨k, 0, 1, CHUNK_SIZE, (lookupBRD cat 1).color⟩] :=
    mergeScan_column _ k _ hk (fun a b ha hbb => by
      rw [(hs (CHUNK_SIZE - 1) a b (by decide) ha hbb).2.2.2.2.1]
      by_cases hc : a = k
      · rw [if_pos ⟨rfl, hc⟩, if_pos hc]
      · rw [if_neg (by omega), if_neg hc])
  have Lback0 : ∀ j, j < CHUNK_SIZE → j ≠ 0 →
      layerRects c cat (fun _ => none) .back j = [] := fun j hj hj0 =>
    mergeScan_none_from _ 0 0 (fun a b ha _ hbb => by
      rw [(hs j a b hj ha hbb).2.2.2.2.2, if_neg (by omega)])
  have Lbackk : layerRects c cat (fun _ => none) .back 0 =
      [⟨0, k, CHUNK_SIZE, 1, (lookupBRD cat 1).color⟩] :=
    mergeScan_row _ k _ hk (fun a b ha hbb => by
      rw [(hs 0 a b (by decide) ha hbb).2.2.2.2.2]
      by_cases hc : b = k
      · rw [if_pos ⟨rfl, hc⟩, if_pos hc]
      · rw [if_neg (by omega), if_neg hc])
  have hmain : allQuads c cat (fun _ => none) =
      [{ d := .up,    w := k, rect := ⟨0, 0, CHUNK_SIZE, CHUNK_SIZE, (lookupBRD cat 1).color⟩ },
       { d := .down,  w := k, rect := ⟨0, 0, CHUNK_SIZE, CHUNK_SIZE, (lookupBRD cat 1).color⟩ },
       { d := .left,  w := 0, rect := ⟨k, 0, 1, CHUNK_SIZE, (lookupBRD cat 1).color⟩ },
       { d := .right, w := CHUNK_SIZE - 1, rect := ⟨0, k, CHUNK_SIZE, 1, (lookupBRD cat 1).color⟩ },
       { d := .front, w := CHUNK_SIZE - 1, rect := ⟨k, 0, 1, CHUNK_SIZE, (lookupBRD cat 1).color⟩ },
       { d := .back,  w := 0, rect := ⟨0, k, CHUNK_SIZE, 1, (lookupBRD cat 1).color⟩ }] := by
    unfold allQuads
    rw [show dirOrder = [NormalDirection.up, .down, .left, .right, .front, .back] from rfl]
    simp only [List.flatMap_cons, List.flatMap_nil, List.append_nil]
    rw [range_flatMap_single CHUNK_SIZE k
        (fun w => (layerRects c cat (fun _ => none) NormalDirection.up w).map
          fun r => Quad.mk NormalDirection.up w r) hk
        (fun j hj hjk => by simp only [Lup0 j hj hjk, List.map_nil]),
      range_flatMap_single CHUNK_SIZE k
        (fun w => (layerRects c cat (fun _ => none) NormalDirection.down w).map
          fun r => Quad.mk NormalDirection.down w r) hk
        (fun j hj hjk => by simp only [Ldown0 j hj hjk, List.map_nil]),
      range_flatMap_single CHUNK_SIZE 0
        (fun w => (layerRects c cat (fun _ => none) NormalDirection.left w).map
          fun r => Quad.mk NormalDirection.left w r) (by decide)
        (fun j hj hjk => by simp only [Lleft0 j hj hjk, List.map_nil]),
      range_flatMap_single CHUNK_SIZE (CHUNK_SIZE - 1)
        (fun w => (layerRects c cat (fun _ => none) NormalDirection.right w).map
          fun r => Quad.mk NormalDirection.right w r) (by decide)
        (fun j hj hjk => by simp only [Lright0 j hj hjk, List.map_nil]),
      range_flatMap_single CHUNK_SIZE (CHUNK_SIZE - 1)
        (fun w => (layerRects c cat (fun _ => none) NormalDirection.front w).map
          fun r => Quad.mk NormalDirection.front w r) (by decide)
        (fun j hj hjk => by simp only [Lfront0 j hj hjk, List.map_nil]),
      range_flatMap_single CHUNK_SIZE 0
        (fun w => (layerRects c cat (fun _ => none) NormalDirection.back w).map
          fun r => Quad.mk NormalDirection.back w r) (by decide)
        (fun j hj hjk => by simp only [Lback0 j hj hjk, List.map_nil])]
    rw [Lupk, Ldownk, Lleftk, Lrightk, Lfrontk, Lbackk]
    rfl
  refine ⟨hmain, ?_⟩
  rw [hmain]
  rfl

theorem claim_C3_witness :
    (5 : Nat) < CHUNK_SIZE ∧
    allQuads (Chunk.new fun x y z => if x = 5 ∧ y = 6 ∧ z = 7 then 1 else 0)
        testCatalog (fun _ => none) =
      [{ d := .up,    w := 7, rect := ⟨5, 6, 1, 1, (1, 0, 0)⟩ },
       { d := .down,  w := 7, rect := ⟨6, 5, 1, 1, (1, 0, 0)⟩ },
       { d := .left,  w := 5, rect := ⟨7, 6, 1, 1, (1, 0, 0)⟩ },
       { d := .right, w := 5, rect := ⟨6, 7, 1, 1, (1, 0, 0)⟩ },
       { d := .front, w := 6, rect := ⟨7, 5, 1, 1, (1, 0, 0)⟩ },
       { d := .back,  w := 6, rect := ⟨5, 7, 1, 1, (1, 0, 0)⟩ }] :=
  ⟨by decide,
   (claim_C3_isolated_block _ testCatalog 5 6 7 (by decide) (by decide) (by decide)
      (fun x y z _ _ _ => rfl) rfl (fun d => by cases d <;> rfl) rfl
      (fun d => by cases d <;> rfl)).1⟩

theorem claim_C4_witness :
    (3 : Nat) < CHUNK_SIZE ∧
    allQuads (Chunk.new fun _ _ z => if z = 3 then 1 else 0) testCatalog (fun _ => none) =
      [{ d := .up,    w := 3,  rect := ⟨0, 0, 32, 32, (1, 0, 0)⟩ },
       { d := .down,  w := 3,  rect := ⟨0, 0, 32, 32, (1, 0, 0)⟩ },
       { d := .left,  w := 0,  rect := ⟨3, 0, 1, 32, (1, 0, 0)⟩ },
       { d := .right, w := 31, rect := ⟨0, 3, 32, 1, (1, 0, 0)⟩ },
       { d := .front, w := 31, rect := ⟨3, 0, 1, 32, (1, 0, 0)⟩ },
       { d := .back,  w := 0,  rect := ⟨0, 3, 32, 1, (1, 0, 0)⟩ }] :=
  ⟨by decide,
   (claim_C4_slab_merged_quads _ testCatalog 3 (by decide)
      (fun x y z _ _ _ => rfl) rfl (fun d => by cases d <;> rfl) rfl
      (fun d => by cases d <;> rfl)).1⟩
